import Mathlib

/-!
# dbt-cloud-action: a shallow embedding of `src/index.js`

The action triggers a dbt Cloud job, polls the run, prints the step logs of a
run that ended in error, downloads the artifacts of the base job and of the
current run and emits two outputs.

The embedding is a writer/state/exception model: an action of type `Act α`
takes the file-system state and returns a result, the new file-system state
and the list of observable events it emitted, in order.  The remote platform
is an explicit argument: the answer to the POST, the answers to the artifact
GETs, and the finite sequence of answers to the successive status GETs.  Each
answer is the outcome of a request once the automatic retries of the HTTP
client (lines 7-14) are over.  Responses are typed: a trigger response carries
`data.id` and `data.href`, a status response carries a run record, and file
system calls do not fail.
-/

set_option autoImplicit false

namespace DbtCloudAction

/-! ## Values, errors, events -/

/-- JavaScript values that can reach a request body or an action output.
Numbers are the integers (`parseInt` never yields a fraction; the rounding of
integers beyond 2^53 and the sign of zero are left out); `nan` is `NaN`. -/
inductive Value where
  | null
  | bool (b : Bool)
  | num (n : Int)
  | nan
  | str (s : String)
  | list (xs : List Value)
  | obj (fields : List (String × Value))

/-- A thrown JavaScript error: `text` is `e.toString()`, `responseStatus` is
`e.response.status` when the error carries an HTTP response. -/
structure JsError where
  text : String
  responseStatus : Option Nat
  deriving DecidableEq, Repr

/-- A request body: the own properties of the object, in insertion order. -/
abbrev Body := List (String × Value)

/-- The assignment `body[key] = v` of line 87. -/
def Body.assign (b : Body) (key : String) (v : Value) : Body :=
  if b.any (fun p => p.1 == key) then
    b.map (fun p => if p.1 == key then (key, v) else p)
  else b ++ [(key, v)]

/-- The test `key in body`. -/
def Body.has (b : Body) (key : String) : Bool := b.any (fun p => p.1 == key)

/-- The read `body[key]`. -/
def Body.get (b : Body) (key : String) : Option Value := b.lookup key

/-- The REST endpoints of the platform the action talks to. -/
inductive Endpoint where
  | triggerRun (accountId jobId : String)
  | run (accountId : String) (runId : Nat)
  | jobArtifact (accountId jobId artifact : String)
  | runArtifact (accountId : String) (runId : Nat) (artifact : String)
  deriving DecidableEq, Repr

/-- The path given to the HTTP client for each endpoint (lines 93, 100, 124, 148). -/
def Endpoint.url : Endpoint → String
  | .triggerRun a j => "/accounts/" ++ a ++ "/jobs/" ++ j ++ "/run/"
  | .run a r => "/accounts/" ++ a ++ "/runs/" ++ toString r ++ "/?include_related=[\"run_steps\"]"
  | .jobArtifact a j art => "/accounts/" ++ a ++ "/jobs/" ++ j ++ "/artifacts/" ++ art
  | .runArtifact a r art => "/accounts/" ++ a ++ "/runs/" ++ toString r ++ "/artifacts/" ++ art

/-- A JavaScript number as a sleep takes it: a finite value (every finite
double is a rational number), `NaN`, or an infinity. The sign of zero is left
out. -/
inductive JsNumber where
  | finite (q : ℚ)
  | nan
  | infinity
  | negInfinity
  deriving DecidableEq

/-- The observable effects of the action, in the order they happen. A sleep
records the number handed to `setTimeout`, whatever it is. -/
inductive Event where
  | sleep (ms : JsNumber)
  | httpPost (ep : Endpoint) (body : Body)
  | httpGet (ep : Endpoint)
  | info (msg : String)
  | notice (msg : String)
  | debug (msg : String)
  | debugStack (e : JsError)
  | consoleError (msg : String)
  | setFailed (msg : Option String)
  | mkdir (dir : String)
  | writeFile (path content : String)
  | setOutput (name : String) (value : Value)

/-- The part of the file system the action reads and writes. -/
structure FS where
  dirs : List String
  files : List (String × String)

/-- The outcome of running an action: a value, a thrown error, or `stuck` when
the finite sequence of status answers was used up before the action ended. -/
inductive Res (α : Type) where
  | ok (a : α) (fs : FS) (evs : List Event)
  | thrown (e : JsError) (fs : FS) (evs : List Event)
  | stuck

/-- Events emitted before a result are put in front of those of the result. -/
def Res.prepend {α : Type} (pre : List Event) : Res α → Res α
  | .ok a fs evs => .ok a fs (pre ++ evs)
  | .thrown e fs evs => .thrown e fs (pre ++ evs)
  | .stuck => .stuck

/-- The events of a result (none when stuck). -/
def Res.events {α : Type} : Res α → List Event
  | .ok _ _ evs => evs
  | .thrown _ _ evs => evs
  | .stuck => []

/-- An effectful computation over the file system. -/
def Act (α : Type) : Type := FS → Res α

/-- Return a value, no effect. -/
def Act.ret {α : Type} (a : α) : Act α := fun fs => .ok a fs []

/-- Sequencing: a thrown error or a stuck run ends the sequence. -/
def Act.andThen {α β : Type} (m : Act α) (f : α → Act β) : Act β := fun fs =>
  match m fs with
  | .ok a fs1 evs1 => (f a fs1).prepend evs1
  | .thrown e fs1 evs1 => .thrown e fs1 evs1
  | .stuck => .stuck

instance : Monad Act where
  pure := Act.ret
  bind := Act.andThen

/-- The statement `throw e`. -/
def raise {α : Type} (e : JsError) : Act α := fun fs => .thrown e fs []

/-- The statement `try { m } catch (e) { h e }`. -/
def tryCatch {α : Type} (m : Act α) (h : JsError → Act α) : Act α := fun fs =>
  match m fs with
  | .thrown e fs1 evs1 => (h e fs1).prepend evs1
  | r => r

/-- Emit one event. -/
def emit (ev : Event) : Act Unit := fun fs => .ok () fs [ev]

/-- Lift a pure fallible result. -/
def liftExcept {α : Type} : Except JsError α → Act α
  | .ok a => Act.ret a
  | .error e => raise e

/-! ## The platform the action runs on -/

/-- What the hosting environment and the libraries provide: the action inputs
(`core.getInput`, already trimmed), `YAML.parse`, the coercion of a string to
a number that the `*` operator applies to a string operand (`toNumber`), the
`*` operator on numbers itself, rounding included (`times`), and
`JSON.stringify` (compact, and with indent 2). -/
structure Platform where
  getInput : String → String
  yamlParse : String → Except JsError Value
  toNumber : String → JsNumber
  times : JsNumber → JsNumber → JsNumber
  jsonStringify : Value → String
  jsonPretty : Body → String

/-- The toolkit function `core.getBooleanInput`: the six spellings of the YAML
1.2 core schema, a `TypeError` for anything else (the empty string included). -/
def getBooleanInput (P : Platform) (name : String) : Except JsError Bool :=
  let val := P.getInput name
  if ["true", "True", "TRUE"].contains val then .ok true
  else if ["false", "False", "FALSE"].contains val then .ok false
  else .error
    { text := "TypeError: Input does not meet YAML 1.2 \"Core Schema\" specification: " ++ name ++
        "\nSupport boolean input list: `true | True | TRUE | false | False | FALSE`"
      responseStatus := none }

/-- White space skipped by `parseInt` (the ASCII part of `StrWhiteSpaceChar`,
with the no-break space and the byte order mark). -/
def isStrWhiteSpace (c : Char) : Bool :=
  c.toNat == 32 || c.toNat == 9 || c.toNat == 10 || c.toNat == 11 || c.toNat == 12 ||
  c.toNat == 13 || c.toNat == 160 || c.toNat == 65279

/-- The value of a character as a digit (letters count from ten). -/
def digitValue (c : Char) : Option Nat :=
  if 48 ≤ c.toNat ∧ c.toNat ≤ 57 then some (c.toNat - 48)
  else if 97 ≤ c.toNat ∧ c.toNat ≤ 122 then some (c.toNat - 97 + 10)
  else if 65 ≤ c.toNat ∧ c.toNat ≤ 90 then some (c.toNat - 65 + 10)
  else none

/-- Is the character a digit of the radix? -/
def isRadixDigit (radix : Nat) (c : Char) : Bool :=
  match digitValue c with
  | some d => decide (d < radix)
  | none => false

/-- The mathematical value of a string of digits in the radix. -/
def digitsValue (radix : Nat) (cs : List Char) : Nat :=
  cs.foldl (fun acc c => acc * radix + (digitValue c).getD 0) 0

/-- The last steps of `parseInt`: `NaN` for an empty run of digits, else the
signed value of the run. -/
def signedValue (negative : Bool) (radix : Nat) (z : List Char) : Value :=
  if z.isEmpty then .nan
  else if negative then .num (-(digitsValue radix z : Int)) else .num (digitsValue radix z)

/-- The builtin `parseInt(string)` with no radix argument: skip white space,
read a sign, a `0x`/`0X` mark selects radix 16, then take the longest run of
digits; `NaN` when that run is empty. -/
def parseInt (s : String) : Value :=
  let cs := s.data.dropWhile isStrWhiteSpace
  let negative := cs.head? == some '-'
  let cs := if cs.head? == some '-' ∨ cs.head? == some '+' then cs.tail else cs
  let hex := cs.take 2 == ['0', 'x'] || cs.take 2 == ['0', 'X']
  let radix := if hex then 16 else 10
  let cs := if hex then cs.drop 2 else cs
  let z := cs.takeWhile (isRadixDigit radix)
  signedValue negative radix z

/-! ## Job trigger (lines 42-95) -/

def OPTIONAL_KEYS : List String :=
  [ "git_sha",
    "git_branch",
    "schema_override",
    "dbt_version_override",
    "threads_override",
    "target_name_override",
    "generate_docs_override",
    "timeout_seconds_override",
    "steps_override" ]

def BOOL_OPTIONAL_KEYS : List String := ["generate_docs_override"]
def INTEGER_OPTIONAL_KEYS : List String := ["threads_override", "timeout_seconds_override"]
def YAML_PARSE_OPTIONAL_KEYS : List String := ["steps_override"]

/-- The message of the `core.setFailed` call of lines 78-80. -/
def yamlFailureMessage (key : String) : String :=
  "Could not interpret " ++ key ++
    " correctly. Pass valid YAML in a string.\n Example:\n  property: '['a string', 'another string']'"

/-- The conversion of one optional input (lines 64-83): the value that the
variable `input` holds when line 86 is reached. -/
def convertInput (P : Platform) (key : String) : Act Value :=
  let input := P.getInput key
  if input != "" && BOOL_OPTIONAL_KEYS.contains key then do
    let b ← liftExcept (getBooleanInput P key)
    pure (.bool b)
  else if input != "" && INTEGER_OPTIONAL_KEYS.contains key then
    pure (parseInt input)
  else if input != "" && YAML_PARSE_OPTIONAL_KEYS.contains key then do
    emit (.debug input)
    tryCatch
      (do
        let v ← liftExcept (P.yamlParse input)
        match v with
        | .str s => pure (.list [.str s])
        | other => pure other)
      (fun e => do
        emit (.setFailed (some (yamlFailureMessage key)))
        raise e)
  else
    pure (.str input)

/-- The strict comparison `input !== ''` of line 86. -/
def notEmptyString : Value → Bool
  | .str s => s != ""
  | _ => true

/-- One iteration of the loop of lines 63-89. -/
def addOptionalKey (P : Platform) (body : Body) (key : String) : Act Body := do
  let input ← convertInput P key
  if notEmptyString input then pure (body.assign key input) else pure body

/-- The loop `for (const key of keys)` of lines 63-89. -/
def addOptionalKeys (P : Platform) : List String → Body → Act Body
  | [], body => pure body
  | key :: keys, body => do
    let body ← addOptionalKey P body key
    addOptionalKeys P keys body

/-- Lines 59-91 of `runJob`: the request body, up to the POST. -/
def buildBody (P : Platform) : Act Body := do
  let cause := P.getInput "cause"
  let body : Body := [("cause", .str cause)]
  let body ← addOptionalKeys P OPTIONAL_KEYS body
  emit (.debug ("Run job body:\n" ++ P.jsonPretty body))
  pure body

/-- The part of the trigger response the action reads: `data.id` and `data.href`. -/
structure TriggerResponse where
  id : Nat
  href : String
  deriving DecidableEq, Repr

/-- The remote platform: the answer to the trigger POST and to each artifact GET. -/
structure Remote where
  post : Endpoint → Body → Except JsError TriggerResponse
  getArtifact : Endpoint → Except JsError Value

/-- The function `runJob` (lines 58-95). -/
def runJob (P : Platform) (R : Remote) (accountId job_id : String) : Act TriggerResponse := do
  let body ← buildBody P
  emit (.httpPost (.triggerRun accountId job_id) body)
  liftExcept (R.post (.triggerRun accountId job_id) body)

/-! ## Run status (lines 16-23, 97-112) -/

/-- One entry of `run_steps`. -/
structure RunStep where
  name : String
  logs : String
  deriving DecidableEq, Repr

/-- The fields of a fetched run (`res.data`) that the action reads. -/
structure RunRecord where
  id : Nat
  status : Nat
  is_complete : Bool
  is_error : Bool
  git_sha : String
  run_steps : List RunStep
  deriving DecidableEq, Repr

/-- The answer to one status GET: the request failed, or a run record came back. -/
inductive FetchOutcome where
  | failed (e : JsError)
  | ok (r : RunRecord)
  deriving DecidableEq, Repr

/-- The table `RUN_STATUS` (lines 16-23). -/
def RUN_STATUS (code : Nat) : Option String :=
  if code = 1 then some "Queued"
  else if code = 2 then some "Starting"
  else if code = 3 then some "Running"
  else if code = 10 then some "Success"
  else if code = 20 then some "Error"
  else if code = 30 then some "Cancelled"
  else none

/-- How a template literal prints a table entry (`undefined` when absent). -/
def showStatus : Option String → String
  | some s => s
  | none => "undefined"

/-- Does `pat` occur in `s`? (`s.search(pat) != -1` for a pattern with no
regular-expression operator.) -/
def hasSubstring (s pat : String) : Bool :=
  s.data.tails.any (fun t => pat.data.isPrefixOf t)

/-- The function `getJobRun` (lines 97-112), given the answer of the platform:
the record, or `none` (the JavaScript `undefined`) after logging the failure. -/
def getJobRun (accountId : String) (run_id : Nat) (answer : FetchOutcome) :
    Act (Option RunRecord) := do
  emit (.httpGet (.run accountId run_id))
  match answer with
  | .ok r => pure (some r)
  | .failed e =>
    let errorMsg := e.text
    let errorMsg :=
      if hasSubstring errorMsg "timeout of " && hasSubstring errorMsg " exceeded" then
        errorMsg ++ ". The dbt Cloud API is taking too long to respond."
      else errorMsg
    emit (.consoleError ("Error getting job information from dbt Cloud. " ++ errorMsg))
    pure none

/-! ## Run poller (lines 173-195) -/

/-- The loop `while (true)` of lines 174-195 over the successive answers of the
platform. It returns the record held by `res` at the `break` and the answers
not yet used; it is stuck when the answers run out before a `break`. -/
def pollLoop (P : Platform) (accountId : String) (currentRunId : Nat) :
    List FetchOutcome → Act (RunRecord × List FetchOutcome)
  | [] => fun _ => .stuck
  | answer :: rest => do
    emit (.sleep (P.times (P.toNumber (P.getInput "interval")) (.finite 1000)))
    let res ← getJobRun accountId currentRunId answer
    match res with
    | none => pollLoop P accountId currentRunId rest
    | some r =>
      let status := RUN_STATUS r.status
      emit (.info ("Run: " ++ toString r.id ++ " - " ++ showStatus status))
      let wait ← liftExcept (getBooleanInput P "wait_for_job")
      if wait then
        if r.is_complete then do
          emit (.info ("job finished with '" ++ showStatus status ++ "'"))
          pure (r, rest)
        else pollLoop P accountId currentRunId rest
      else do
        emit (.info "Not waiting for job to finish. Relevant run logs will be omitted.")
        pure (r, rest)

/-! ## Log reporter (lines 201-212) -/

/-- The loop over `run_steps` of lines 207-211. -/
def printSteps : List RunStep → Act Unit
  | [] => pure ()
  | step :: steps => do
    emit (.info ("# " ++ step.name))
    emit (.info step.logs)
    emit (.info "\n************\n")
    printSteps steps

/-- The body of `if (res.data.is_error)` (lines 202-211): the new value of `res`.
Reading `res.data` of a failed fetch throws a `TypeError`. -/
def reportLogs (accountId : String) (currentRunId : Nat) :
    List FetchOutcome → Act RunRecord
  | [] => fun _ => .stuck
  | answer :: _ => do
    emit (.info "Loading logs...")
    emit (.sleep (.finite 5000))
    let res ← getJobRun accountId currentRunId answer
    match res with
    | none =>
      raise
        { text := "TypeError: Cannot read properties of undefined (reading 'data')"
          responseStatus := none }
    | some r => do
      printSteps r.run_steps
      pure r

/-! ## Artifact fetcher (lines 34, 114-160) -/

def ARTIFACTS : List String := ["manifest.json", "catalog.json"]

/-- Lines 116-118 and 140-142: create the directory unless it exists. -/
def ensureDir (saveDir : String) : Act Unit := fun fs =>
  if fs.dirs.contains saveDir then .ok () fs []
  else .ok () { fs with dirs := fs.dirs ++ [saveDir] } [.mkdir saveDir]

/-- The call `fs.writeFileSync(path, content)`. -/
def writeFileSync (path content : String) : Act Unit := fun fs =>
  .ok () { fs with files := fs.files.filter (fun f => f.1 != path) ++ [(path, content)] }
    [.writeFile path content]

/-- One iteration of the loop of `getJobArtifacts` (lines 121-134). -/
def fetchJobArtifact (P : Platform) (R : Remote) (accountId jobId saveDir artifact : String) :
    Act Unit :=
  tryCatch
    (do
      emit (.info ("Fetching " ++ artifact ++ " for the base environment"))
      emit (.httpGet (.jobArtifact accountId jobId artifact))
      let data ← liftExcept (R.getArtifact (.jobArtifact accountId jobId artifact))
      emit (.info ("Saving " ++ artifact ++ " in " ++ saveDir))
      writeFileSync (saveDir ++ "/" ++ artifact) (P.jsonStringify data))
    (fun error =>
      if artifact == "catalog.json" && error.responseStatus == some 404 then
        emit (.notice "catalog.json not found in the base job. Skipping download.")
      else raise error)

/-- The loop of `getJobArtifacts` (lines 120-135). -/
def jobArtifactsLoop (P : Platform) (R : Remote) (accountId jobId saveDir : String) :
    List String → Act Unit
  | [] => pure ()
  | artifact :: artifacts => do
    fetchJobArtifact P R accountId jobId saveDir artifact
    jobArtifactsLoop P R accountId jobId saveDir artifacts

/-- The function `getJobArtifacts` (lines 114-136). -/
def getJobArtifacts (P : Platform) (R : Remote) (accountId jobId : String) : Act Unit := do
  let saveDir := "./target-base"
  ensureDir saveDir
  jobArtifactsLoop P R accountId jobId saveDir ARTIFACTS

/-- One iteration of the loop of `getRunArtifacts` (lines 145-158). -/
def fetchRunArtifact (P : Platform) (R : Remote) (accountId : String) (runId : Nat)
    (saveDir artifact : String) : Act Unit :=
  tryCatch
    (do
      emit (.info ("Fetching " ++ artifact ++ " for the current environment"))
      emit (.httpGet (.runArtifact accountId runId artifact))
      let data ← liftExcept (R.getArtifact (.runArtifact accountId runId artifact))
      emit (.info ("Saving " ++ artifact ++ " in " ++ saveDir))
      writeFileSync (saveDir ++ "/" ++ artifact) (P.jsonStringify data))
    (fun error =>
      if artifact == "catalog.json" && error.responseStatus == some 404 then
        emit (.notice "catalog.json not found in the current run. Skipping download.")
      else raise error)

/-- The loop of `getRunArtifacts` (lines 144-159). -/
def runArtifactsLoop (P : Platform) (R : Remote) (accountId : String) (runId : Nat)
    (saveDir : String) : List String → Act Unit
  | [] => pure ()
  | artifact :: artifacts => do
    fetchRunArtifact P R accountId runId saveDir artifact
    runArtifactsLoop P R accountId runId saveDir artifacts

/-- The function `getRunArtifacts` (lines 138-160). -/
def getRunArtifacts (P : Platform) (R : Remote) (accountId : String) (runId : Nat) :
    Act Unit := do
  let saveDir := "./target"
  ensureDir saveDir
  runArtifactsLoop P R accountId runId saveDir ARTIFACTS

/-! ## Orchestrator (lines 162-243) -/

/-- The object returned by `executeAction`. -/
structure Outputs where
  git_sha : String
  run_id : Nat
  deriving DecidableEq, Repr

/-- Lines 214-225 of `executeAction`: the two artifact downloads and the
returned object, from the record held by `res`. -/
def downloadAndReturn (P : Platform) (R : Remote) (accountId baseJobId : String)
    (currentRunId : Nat) (res : RunRecord) : Act Outputs := do
  getJobArtifacts P R accountId baseJobId
  getRunArtifacts P R accountId currentRunId
  pure { git_sha := res.git_sha, run_id := currentRunId }

/-- Lines 197-225 of `executeAction`: everything after the poll loop, from the
record `res` the loop ended on and the answers the platform has yet to give. -/
def afterPoll (P : Platform) (R : Remote) (accountId baseJobId : String) (currentRunId : Nat)
    (failure_on_error : Bool) (res : RunRecord) (rest : List FetchOutcome) : Act Outputs := do
  if res.is_error && failure_on_error then
    emit (.setFailed none)
  let res ← if res.is_error then reportLogs accountId currentRunId rest else pure res
  downloadAndReturn P R accountId baseJobId currentRunId res

/-- The function `executeAction` (lines 162-226); `answers` are the answers
of the platform to the successive status GETs. -/
def executeAction (P : Platform) (R : Remote) (answers : List FetchOutcome) : Act Outputs := do
  let accountId := P.getInput "dbt_cloud_account_id"
  let baseJobId := P.getInput "dbt_cloud_base_job_id"
  let currentJobId := P.getInput "dbt_cloud_current_job_id"
  let failure_on_error ← liftExcept (getBooleanInput P "failure_on_error")
  let currentJobRun ← runJob P R accountId currentJobId
  let currentRunId := currentJobRun.id
  emit (.info ("Triggered job. " ++ currentJobRun.href))
  let (res, rest) ← pollLoop P accountId currentRunId answers
  afterPoll P R accountId baseJobId currentRunId failure_on_error res rest

/-- The function `main` (lines 228-243). -/
def main (P : Platform) (R : Remote) (answers : List FetchOutcome) : Act Unit :=
  tryCatch
    (do
      let outputs ← executeAction P R answers
      let git_sha := outputs.git_sha
      let run_id := outputs.run_id
      emit (.info ("dbt Cloud Job commit SHA is " ++ git_sha))
      emit (.setOutput "git_sha" (.str git_sha))
      emit (.setOutput "run_id" (.num run_id)))
    (fun e => do
      emit (.setFailed (some ("There has been a problem with running your dbt cloud job:\n" ++ e.text)))
      emit (.debugStack e))


/-! ## Reference values and example platforms -/

/-- The value line 86 sees for a non-empty input, when the conversion returns. -/
def convertedValue (P : Platform) (key : String) : Value :=
  let input := P.getInput key
  if BOOL_OPTIONAL_KEYS.contains key then .bool (["true", "True", "TRUE"].contains input)
  else if INTEGER_OPTIONAL_KEYS.contains key then parseInt input
  else if YAML_PARSE_OPTIONAL_KEYS.contains key then
    match P.yamlParse input with
    | .ok (.str s) => .list [.str s]
    | .ok v => v
    | .error _ => .null
  else .str input

/-- Events that only log or mark the action failed: no request, no sleep, no
file system change, no output. -/
def Event.isLocal : Event → Bool
  | .debug _ => true
  | .setFailed _ => true
  | _ => false

/-- Every event the action can emit, from any file-system state, satisfies `S`. -/
def Act.emitsOnly {α : Type} (S : Event → Prop) (m : Act α) : Prop :=
  ∀ fs ev, ev ∈ (m fs).events → S ev

/-- The sign of a number: 1, -1, or 0 for zero and `NaN`. -/
def JsNumber.sign : JsNumber → Int
  | .finite q => if 0 < q then 1 else if q < 0 then -1 else 0
  | .nan => 0
  | .infinity => 1
  | .negInfinity => -1

/-- The coercion of a text to a number on the example platform: the empty text
is 0, an unsigned decimal literal (digits with at most one point) is its
value, any other text is `NaN`. -/
def exampleToNumber (text : String) : JsNumber :=
  let whole := text.data.takeWhile (fun c => c != '.')
  let fraction := (text.data.dropWhile (fun c => c != '.')).drop 1
  if (whole ++ fraction).all Char.isDigit && !(whole ++ fraction).isEmpty then
    .finite ((digitsValue 10 (whole ++ fraction) : ℚ) / ((10 ^ fraction.length : Nat) : ℚ))
  else if text.isEmpty then .finite 0
  else .nan

/-- The product on the example platform: the exact product of two finite
values (the product of the doubles whenever that product is itself a double,
as for the intervals of the examples), and the usual rules for `NaN` and the
infinities. -/
def exampleTimes : JsNumber → JsNumber → JsNumber
  | .nan, _ => .nan
  | _, .nan => .nan
  | .finite a, .finite b => .finite (a * b)
  | x, y =>
    if x.sign * y.sign = 0 then .nan
    else if x.sign * y.sign = 1 then .infinity
    else .negInfinity

/-- An example platform: the inputs and the results of `YAML.parse` are given
by tables (an input absent from the table is empty, a text absent from the
table parses to itself as a plain scalar). -/
def examplePlatform (inputs : List (String × String))
    (yaml : List (String × Except JsError Value)) : Platform :=
  { getInput := fun name => (inputs.lookup name).getD ""
    yamlParse := fun text => (yaml.lookup text).getD (.ok (.str text))
    toNumber := exampleToNumber
    times := exampleTimes
    jsonStringify := fun v =>
      match v with
      | .str text => "\"" ++ text ++ "\""
      | _ => "null"
    jsonPretty := fun _ => "<body>" }

/-- An example remote: the trigger answers with run 42, and the artifact GETs
answer from a table (an endpoint absent from the table answers with `"x"`). -/
def exampleRemote (artifacts : List (Endpoint × Except JsError Value)) : Remote :=
  { post := fun _ _ => .ok { id := 42, href := "/runs/42" }
    getArtifact := fun ep => (artifacts.lookup ep).getD (.ok (.str "x")) }

/-- The empty file system. -/
def emptyFS : FS := { dirs := [], files := [] }

/-- An example run of the trigger: cause, thread count `0`, docs override `false`,
and a structured override that parses to the plain scalar `a`. -/
def triggerExample : Platform :=
  examplePlatform
    [("cause", "ci"), ("threads_override", "0"), ("generate_docs_override", "false"),
      ("steps_override", "a")]
    []

/-- The body that `triggerExample` submits. -/
def triggerExampleBody : Body :=
  [("cause", .str "ci"), ("threads_override", .num 0), ("generate_docs_override", .bool false),
    ("steps_override", .list [.str "a"])]

/-- An example where the structured override parses to a list. -/
def stepsListExample : Platform :=
  examplePlatform [("steps_override", "[dbt run, dbt test]")]
    [("[dbt run, dbt test]", .ok (.list [.str "dbt run", .str "dbt test"]))]

/-- An example where the structured override does not parse. -/
def badStepsExample : Platform :=
  examplePlatform [("failure_on_error", "true"), ("steps_override", "[")]
    [("[", .error { text := "YAMLParseError: Flow sequence must end with a ]",
                    responseStatus := none })]

/-- An example where the structured override does not parse and the boolean
override is not one of the accepted spellings. -/
def badStepsBadBoolExample : Platform :=
  examplePlatform
    [("failure_on_error", "true"), ("generate_docs_override", "yes"), ("steps_override", "[")]
    [("[", .error { text := "YAMLParseError: Flow sequence must end with a ]",
                    responseStatus := none })]

/-- An example where each of the nine optional inputs is the text `true`
(the structured parse of `true` being the boolean). -/
def allTrueExample : Platform :=
  examplePlatform (OPTIONAL_KEYS.map (fun k => (k, "true"))) [("true", .ok (.bool true))]

/-- The body that `allTrueExample` submits. -/
def allTrueExampleBody : Body :=
  [("cause", .str ""), ("git_sha", .str "true"), ("git_branch", .str "true"),
    ("schema_override", .str "true"), ("dbt_version_override", .str "true"),
    ("threads_override", .nan), ("target_name_override", .str "true"),
    ("generate_docs_override", .bool true), ("timeout_seconds_override", .nan),
    ("steps_override", .bool true)]

/-- Does the poll loop `break` on this answer? A failed fetch never does; a
fetched record does when not waiting, or when it reports completion. -/
def FetchOutcome.stops (wait : Bool) : FetchOutcome → Bool
  | .failed _ => false
  | .ok r => !wait || r.is_complete

/-- The same answer with the numeric status code replaced. -/
def FetchOutcome.withStatus (f : Nat → Nat) : FetchOutcome → FetchOutcome
  | .failed e => .failed e
  | .ok r => .ok { r with status := f r.status }

/-- Log lines: `core.info` and `console.error`. -/
def Event.isLog : Event → Bool
  | .info _ => true
  | .consoleError _ => true
  | _ => false

/-- Is the event a GET of the run record? -/
def Event.isRunGet : Event → Bool
  | .httpGet (.run _ _) => true
  | _ => false

/-- A trace made of one block per status fetch: a sleep of `ms` milliseconds,
immediately followed by the GET of the run, followed by the log lines of that
iteration. -/
def pollTrace (ms : JsNumber) (ep : Endpoint) : List (List Event) → List Event
  | [] => []
  | logs :: more => .sleep ms :: .httpGet ep :: (logs ++ pollTrace ms ep more)

/-- An example platform that waits for the job, polling every 2 seconds. -/
def waitingExample : Platform :=
  examplePlatform
    [("dbt_cloud_account_id", "7"), ("dbt_cloud_base_job_id", "8"),
      ("dbt_cloud_current_job_id", "9"), ("failure_on_error", "true"), ("interval", "2"),
      ("wait_for_job", "true")]
    []

/-- An example platform that does not wait for the job. -/
def notWaitingExample : Platform :=
  examplePlatform
    [("dbt_cloud_account_id", "7"), ("dbt_cloud_base_job_id", "8"),
      ("dbt_cloud_current_job_id", "9"), ("failure_on_error", "true"), ("interval", "2"),
      ("wait_for_job", "false")]
    []

/-- A run record that is still running. -/
def runningRecord : RunRecord :=
  { id := 42, status := 3, is_complete := false, is_error := false, git_sha := "",
    run_steps := [] }

/-- A run record that completed with success at commit `abc123`. -/
def successRecord : RunRecord :=
  { id := 42, status := 10, is_complete := true, is_error := false, git_sha := "abc123",
    run_steps := [] }

/-- A failed status fetch. -/
def timeoutFailure : FetchOutcome :=
  .failed { text := "AxiosError: timeout of 5000ms exceeded", responseStatus := none }

/-- The steps of an artifact download that matter to its outcome: the GETs,
the file writes and the notices. -/
def Event.isArtifactStep : Event → Bool
  | .httpGet _ => true
  | .writeFile _ _ => true
  | .notice _ => true
  | _ => false

/-- The file system after `fs.writeFileSync(path, content)`. -/
def FS.withFile (fs : FS) (path content : String) : FS :=
  { fs with files := fs.files.filter (fun f => f.1 != path) ++ [(path, content)] }

/-- An HTTP error carrying a response with the given status. -/
def httpError (status : Nat) : JsError :=
  { text := "AxiosError: Request failed with status code " ++ toString status
    responseStatus := some status }

/-- An example remote where the base job has no catalog: its GET answers 404. -/
def noBaseCatalogRemote : Remote :=
  exampleRemote [(.jobArtifact "7" "8" "catalog.json", .error (httpError 404))]

/-- The lines printed for the steps of a run, in order: for each step its name
after `# `, its full log text, and a separator. -/
def stepLines : List RunStep → List Event
  | [] => []
  | step :: steps =>
    .info ("# " ++ step.name) :: .info step.logs :: .info "\n************\n" :: stepLines steps

/-- Marks left on the invocation: `core.setFailed` and `core.setOutput`. -/
def Event.isMark : Event → Bool
  | .setFailed _ => true
  | .setOutput _ _ => true
  | _ => false

/-- Is the event a `core.setFailed`? -/
def Event.isSetFailed : Event → Bool
  | .setFailed _ => true
  | _ => false

/-- Is the event a `core.setOutput`? -/
def Event.isSetOutput : Event → Bool
  | .setOutput _ _ => true
  | _ => false

/-- Is the event a sleep? -/
def Event.isSleep : Event → Bool
  | .sleep _ => true
  | _ => false

/-- The `TypeError` of reading `res.data` when `res` is `undefined`. -/
def undefinedDataError : JsError :=
  { text := "TypeError: Cannot read properties of undefined (reading 'data')"
    responseStatus := none }

/-- A run record that completed in error at commit `abc123`, before its steps
were loaded. -/
def errorRecord : RunRecord :=
  { id := 42, status := 20, is_complete := true, is_error := true, git_sha := "abc123",
    run_steps := [] }

/-- The same run fetched again: the steps are loaded, and the platform reports
another commit. -/
def errorRecordReloaded : RunRecord :=
  { id := 42, status := 20, is_complete := true, is_error := true, git_sha := "def456",
    run_steps := [{ name := "Invoke dbt run", logs := "Database Error" }] }

/-- The events of the poll loop and of the log report: sleeps, GETs of the run
and log lines. -/
def Event.isPoll : Event → Bool
  | .sleep _ => true
  | .httpGet (.run _ _) => true
  | .info _ => true
  | .consoleError _ => true
  | _ => false

/-- The events of the artifact downloads: directory creation, GETs of
artifacts, file writes, log lines and notices. -/
def Event.isDownload : Event → Bool
  | .mkdir _ => true
  | .httpGet (.jobArtifact _ _ _) => true
  | .httpGet (.runArtifact _ _ _) => true
  | .writeFile _ _ => true
  | .info _ => true
  | .notice _ => true
  | _ => false

/-- The file system at the end of the scenario of the specification: both
artifacts in both directories. -/
def scenarioFiles : FS :=
  { dirs := ["./target-base", "./target"]
    files := [("./target-base/manifest.json", "\"x\""),
      ("./target-base/catalog.json", "\"x\""),
      ("./target/manifest.json", "\"x\""),
      ("./target/catalog.json", "\"x\"")] }

/-- The trace of `executeAction` in the scenario of the specification: trigger,
two polls, the downloads for the base job and for the current run. -/
def scenarioTrace : List Event :=
  [.debug "Run job body:\n<body>", .httpPost (.triggerRun "7" "9") [("cause", .str "")],
    .info "Triggered job. /runs/42",
    .sleep (.finite 2000), .httpGet (.run "7" 42), .info "Run: 42 - Running",
    .sleep (.finite 2000), .httpGet (.run "7" 42), .info "Run: 42 - Success",
    .info "job finished with 'Success'",
    .mkdir "./target-base",
    .info "Fetching manifest.json for the base environment",
    .httpGet (.jobArtifact "7" "8" "manifest.json"),
    .info "Saving manifest.json in ./target-base",
    .writeFile "./target-base/manifest.json" "\"x\"",
    .info "Fetching catalog.json for the base environment",
    .httpGet (.jobArtifact "7" "8" "catalog.json"),
    .info "Saving catalog.json in ./target-base",
    .writeFile "./target-base/catalog.json" "\"x\"",
    .mkdir "./target",
    .info "Fetching manifest.json for the current environment",
    .httpGet (.runArtifact "7" 42 "manifest.json"),
    .info "Saving manifest.json in ./target",
    .writeFile "./target/manifest.json" "\"x\"",
    .info "Fetching catalog.json for the current environment",
    .httpGet (.runArtifact "7" 42 "catalog.json"),
    .info "Saving catalog.json in ./target",
    .writeFile "./target/catalog.json" "\"x\""]

/-- An example platform that waits for the job, polling every half second. -/
def halfSecondExample : Platform :=
  examplePlatform
    [("dbt_cloud_account_id", "7"), ("dbt_cloud_base_job_id", "8"),
      ("dbt_cloud_current_job_id", "9"), ("failure_on_error", "true"), ("interval", "0.5"),
      ("wait_for_job", "true")]
    []

/-! ## Lemmas on the effect model -/

theorem bind_run {α β : Type} (m : Act α) (f : α → Act β) (fs : FS) :
    (m >>= f) fs =
      match m fs with
      | .ok a fs1 evs1 => (f a fs1).prepend evs1
      | .thrown e fs1 evs1 => .thrown e fs1 evs1
      | .stuck => .stuck := rfl

theorem pure_run {α : Type} (a : α) (fs : FS) : (pure a : Act α) fs = .ok a fs [] := rfl

theorem emit_run (ev : Event) (fs : FS) : emit ev fs = .ok () fs [ev] := rfl

theorem raise_run {α : Type} (e : JsError) (fs : FS) : (raise e : Act α) fs = .thrown e fs [] := rfl

theorem signedValue_notEmptyString (negative : Bool) (radix : Nat) (z : List Char) :
    notEmptyString (signedValue negative radix z) = true := by
  unfold signedValue
  split
  · rfl
  · split <;> rfl

theorem parseInt_notEmptyString (s : String) : notEmptyString (parseInt s) = true := by
  unfold parseInt
  exact signedValue_notEmptyString _ _ _

theorem liftExcept_ok_run {α : Type} (a : α) (fs : FS) :
    liftExcept (Except.ok a) fs = .ok a fs [] := rfl

theorem liftExcept_error_run {α : Type} (e : JsError) (fs : FS) :
    (liftExcept (Except.error e) : Act α) fs = .thrown e fs [] := rfl

theorem getBooleanInput_ok (P : Platform) (name : String) (b : Bool)
    (h : getBooleanInput P name = .ok b) :
    b = ["true", "True", "TRUE"].contains (P.getInput name) := by
  unfold getBooleanInput at h
  by_cases h1 : ["true", "True", "TRUE"].contains (P.getInput name) = true
  · simp only [h1, if_true, Except.ok.injEq] at h
    rw [h1, ← h]
  · by_cases h2 : ["false", "False", "FALSE"].contains (P.getInput name) = true
    · simp only [h1, h2, if_true, Bool.false_eq_true, if_false, Except.ok.injEq] at h
      rw [← h]
      simpa using h1
    · simp only [h1, h2, Bool.false_eq_true, if_false] at h
      cases h

theorem convertInput_ok (P : Platform) (key : String) (fs fs1 : FS) (v : Value) (evs : List Event)
    (h : convertInput P key fs = .ok v fs1 evs) :
    fs1 = fs ∧ (notEmptyString v = true ↔ P.getInput key ≠ "") ∧
      (P.getInput key ≠ "" → v = convertedValue P key) := by
  unfold convertInput at h
  unfold convertedValue
  by_cases hin : P.getInput key = ""
  · simp [hin, pure_run] at h
    obtain ⟨rfl, rfl, rfl⟩ := h
    simp [notEmptyString, hin]
  · have hne : (P.getInput key != "") = true := by simpa using hin
    simp only [hne, Bool.true_and] at h
    simp only [hin, not_false_eq_true, ne_eq, iff_true, forall_const]
    by_cases hb : BOOL_OPTIONAL_KEYS.contains key = true
    · simp only [hb, if_true] at h ⊢
      cases hg : getBooleanInput P key with
      | error e => simp [hg, bind_run, liftExcept_error_run] at h
      | ok b =>
        simp only [hg, bind_run, liftExcept_ok_run, pure_run, Res.prepend, List.append_nil,
          Res.ok.injEq] at h
        obtain ⟨rfl, rfl, rfl⟩ := h
        exact ⟨rfl, rfl, congrArg Value.bool (getBooleanInput_ok P key b hg)⟩
    · simp only [hb] at h ⊢
      simp only [Bool.false_eq_true, if_false] at h ⊢
      by_cases hi : INTEGER_OPTIONAL_KEYS.contains key = true
      · simp only [hi, if_true, pure_run] at h ⊢
        simp only [Res.ok.injEq] at h
        obtain ⟨rfl, rfl, rfl⟩ := h
        exact ⟨rfl, parseInt_notEmptyString _, rfl⟩
      · simp only [hi] at h ⊢
        simp only [Bool.false_eq_true, if_false] at h ⊢
        by_cases hy : YAML_PARSE_OPTIONAL_KEYS.contains key = true
        · simp only [hy, if_true] at h ⊢
          simp only [bind_run, emit_run, tryCatch] at h
          cases hp : P.yamlParse (P.getInput key) with
          | error e =>
            simp [hp, liftExcept_error_run, raise_run, Res.prepend] at h
          | ok w =>
            cases w <;>
              simp [hp, liftExcept_ok_run, Res.prepend, pure_run] at h <;>
              obtain ⟨rfl, rfl, rfl⟩ := h <;> simp [notEmptyString]
        · simp only [hy] at h ⊢
          simp only [Bool.false_eq_true, if_false, pure_run, Res.ok.injEq] at h ⊢
          obtain ⟨rfl, rfl, rfl⟩ := h
          simp [notEmptyString, hin]

theorem Body.has_iff (b : Body) (k : String) :
    b.has k = true ↔ ∃ p, p ∈ b ∧ p.1 = k := by
  simp [Body.has]

theorem Body.has_assign (b : Body) (k k2 : String) (v : Value) :
    (b.assign k v).has k2 = true ↔ (b.has k2 = true ∨ k2 = k) := by
  rw [Body.has_iff, Body.has_iff]
  unfold Body.assign
  by_cases hk : b.any (fun p => p.1 == k) = true
  · simp only [hk, if_true]
    obtain ⟨a, ha, hak⟩ := (Body.has_iff b k).mp hk
    constructor
    · rintro ⟨x, hx, hx2⟩
      obtain ⟨y, hy, rfl⟩ := List.mem_map.mp hx
      by_cases hyk : y.1 = k
      · have : (y.1 == k) = true := by simpa using hyk
        simp only [this, if_true] at hx2
        exact Or.inr hx2.symm
      · have : (y.1 == k) = false := by simpa using hyk
        simp only [this, Bool.false_eq_true, if_false] at hx2
        exact Or.inl ⟨y, hy, hx2⟩
    · rintro (⟨x, hx, hx2⟩ | h2)
      · by_cases hxk : x.1 = k
        · refine ⟨(k, v), List.mem_map.mpr ⟨x, hx, ?_⟩, ?_⟩
          · have : (x.1 == k) = true := by simpa using hxk
            simp only [this, if_true]
          · exact hxk.symm.trans hx2
        · refine ⟨x, List.mem_map.mpr ⟨x, hx, ?_⟩, hx2⟩
          have : (x.1 == k) = false := by simpa using hxk
          simp only [this, Bool.false_eq_true, if_false]
      · refine ⟨(k, v), List.mem_map.mpr ⟨a, ha, ?_⟩, h2.symm⟩
        have : (a.1 == k) = true := by simpa using hak
        simp only [this, if_true]
  · simp only [hk, Bool.false_eq_true, if_false]
    constructor
    · rintro ⟨x, hx, hx2⟩
      rcases List.mem_append.mp hx with h1 | h1
      · exact Or.inl ⟨x, h1, hx2⟩
      · have : x = (k, v) := by simpa using h1
        subst this
        exact Or.inr hx2.symm
    · rintro (⟨x, hx, hx2⟩ | h2)
      · exact ⟨x, List.mem_append.mpr (Or.inl hx), hx2⟩
      · exact ⟨(k, v), List.mem_append.mpr (Or.inr (List.mem_singleton.mpr rfl)), h2.symm⟩

theorem beq_comm_false (a b : String) (h : (a == b) = false) : (b == a) = false := by
  have h1 : ¬ a = b := by simpa using h
  simpa using fun h2 : b = a => h1 h2.symm

theorem Body.get_assign_self (b : Body) (k : String) (v : Value) :
    (b.assign k v).get k = some v := by
  unfold Body.assign Body.get
  by_cases hk : b.any (fun p => p.1 == k) = true
  · simp only [hk, if_true]
    induction b with
    | nil => simp at hk
    | cons p ps ih =>
      obtain ⟨pk, pv⟩ := p
      cases hpb : (pk == k) with
      | true =>
        simp only [List.map_cons, hpb, if_true, List.lookup_cons, beq_self_eq_true]
      | false =>
        have hk2 : ps.any (fun p => p.1 == k) = true := by
          simpa only [List.any_cons, hpb, Bool.false_or] using hk
        simp only [List.map_cons, hpb, Bool.false_eq_true, if_false, List.lookup_cons,
          beq_comm_false pk k hpb]
        exact ih hk2
  · simp only [hk, Bool.false_eq_true, if_false]
    induction b with
    | nil => simp only [List.nil_append, List.lookup_cons, beq_self_eq_true]
    | cons p ps ih =>
      obtain ⟨pk, pv⟩ := p
      cases hpb : (pk == k) with
      | true =>
        exact absurd (by simp only [List.any_cons, hpb, Bool.true_or]) hk
      | false =>
        have hk2 : ¬ ps.any (fun p => p.1 == k) = true := by
          simpa only [List.any_cons, hpb, Bool.false_or] using hk
        simp only [List.cons_append, List.lookup_cons, beq_comm_false pk k hpb]
        exact ih hk2

theorem Body.get_map_other (b : Body) (k k2 : String) (v : Value) (h : (k2 == k) = false) :
    List.lookup k2 (List.map (fun p => if p.1 == k then (k, v) else p) b) = List.lookup k2 b := by
  induction b with
  | nil => rfl
  | cons p ps ih =>
    obtain ⟨pk, pv⟩ := p
    cases hpb : (pk == k) with
    | true =>
      have hpk : pk = k := by simpa using hpb
      subst hpk
      simp only [List.map_cons, hpb, if_true, List.lookup_cons, h, ih]
    | false =>
      simp only [List.map_cons, hpb, Bool.false_eq_true, if_false, List.lookup_cons, ih]

theorem Body.get_append_other (b : Body) (k k2 : String) (v : Value) (h : (k2 == k) = false) :
    List.lookup k2 (b ++ [(k, v)]) = List.lookup k2 b := by
  induction b with
  | nil => simp only [List.nil_append, List.lookup_cons, h, List.lookup_nil]
  | cons p ps ih =>
    obtain ⟨pk, pv⟩ := p
    simp only [List.cons_append, List.lookup_cons, ih]

theorem Body.get_assign_other (b : Body) (k k2 : String) (v : Value) (h : k2 ≠ k) :
    (b.assign k v).get k2 = b.get k2 := by
  unfold Body.assign Body.get
  have hk2 : (k2 == k) = false := by simpa using h
  by_cases hk : b.any (fun p => p.1 == k) = true
  · simp only [hk, if_true]
    exact Body.get_map_other b k k2 v hk2
  · simp only [hk, Bool.false_eq_true, if_false]
    exact Body.get_append_other b k k2 v hk2

theorem addOptionalKey_ok (P : Platform) (body body1 : Body) (key : String) (fs fs1 : FS)
    (evs : List Event) (h : addOptionalKey P body key fs = .ok body1 fs1 evs) :
    fs1 = fs ∧
      (P.getInput key = "" → body1 = body) ∧
      (P.getInput key ≠ "" → body1 = body.assign key (convertedValue P key)) := by
  unfold addOptionalKey at h
  rw [bind_run] at h
  cases hc : convertInput P key fs with
  | stuck => simp [hc] at h
  | thrown e fs2 evs2 => simp [hc] at h
  | ok v fs2 evs2 =>
    obtain ⟨rfl, hv, hval⟩ := convertInput_ok P key fs fs2 v evs2 hc
    simp only [hc] at h
    by_cases hin : P.getInput key = ""
    · have hv2 : notEmptyString v = false := by
        cases hn : notEmptyString v with
        | false => rfl
        | true => exact absurd hin (hv.mp hn)
      simp only [hv2, Bool.false_eq_true, if_false, pure_run, Res.prepend, Res.ok.injEq] at h
      obtain ⟨rfl, rfl, _⟩ := h
      exact ⟨rfl, fun _ => rfl, fun hne => absurd hin hne⟩
    · have hv2 : notEmptyString v = true := hv.mpr hin
      simp only [hv2, if_true, pure_run, Res.prepend, Res.ok.injEq] at h
      obtain ⟨rfl, rfl, _⟩ := h
      exact ⟨rfl, fun he => absurd he hin, fun _ => by rw [hval hin]⟩

theorem addOptionalKeys_ok (P : Platform) (keys : List String) :
    ∀ (body body1 : Body) (fs fs1 : FS) (evs : List Event),
      addOptionalKeys P keys body fs = .ok body1 fs1 evs →
      (∀ k, body1.has k = true ↔ (body.has k = true ∨ (k ∈ keys ∧ P.getInput k ≠ ""))) ∧
      (∀ k, k ∉ keys → body1.get k = body.get k) ∧
      (keys.Nodup → ∀ k, k ∈ keys → P.getInput k ≠ "" →
        body1.get k = some (convertedValue P k)) := by
  induction keys with
  | nil =>
    intro body body1 fs fs1 evs h
    simp only [addOptionalKeys, pure_run, Res.ok.injEq] at h
    obtain ⟨rfl, _, _⟩ := h
    simp
  | cons key keys ih =>
    intro body body1 fs fs1 evs h
    simp only [addOptionalKeys] at h
    rw [bind_run] at h
    cases hc : addOptionalKey P body key fs with
    | stuck => simp [hc] at h
    | thrown e fs2 evs2 => simp [hc] at h
    | ok b2 fs2 evs2 =>
      obtain ⟨rfl, hempty, hfull⟩ := addOptionalKey_ok P body b2 key fs fs2 evs2 hc
      simp only [hc] at h
      cases hr : addOptionalKeys P keys b2 fs2 with
      | stuck => simp [hr, Res.prepend] at h
      | thrown e fs3 evs3 => simp [hr, Res.prepend] at h
      | ok b3 fs3 evs3 =>
        simp only [hr, Res.prepend, Res.ok.injEq] at h
        obtain ⟨rfl, rfl, _⟩ := h
        obtain ⟨hhas, hget, hval⟩ := ih b2 b3 fs2 fs3 evs3 hr
        by_cases hin : P.getInput key = ""
        · have hb2 := hempty hin
          subst hb2
          refine ⟨?_, ?_, ?_⟩
          · intro k
            rw [hhas k]
            constructor
            · rintro (h1 | ⟨h1, h2⟩)
              · exact Or.inl h1
              · exact Or.inr ⟨List.mem_cons_of_mem _ h1, h2⟩
            · rintro (h1 | ⟨h1, h2⟩)
              · exact Or.inl h1
              · rcases List.mem_cons.mp h1 with h3 | h3
                · exact absurd (h3 ▸ hin) h2
                · exact Or.inr ⟨h3, h2⟩
          · intro k hk
            exact hget k (fun h1 => hk (List.mem_cons_of_mem _ h1))
          · intro hnd k hk hne
            rcases List.mem_cons.mp hk with h3 | h3
            · exact absurd (h3 ▸ hin) hne
            · exact hval (List.nodup_cons.mp hnd).2 k h3 hne
        · have hb2 := hfull hin
          subst hb2
          refine ⟨?_, ?_, ?_⟩
          · intro k
            rw [hhas k, Body.has_assign]
            constructor
            · rintro ((h4 | h5) | ⟨h1, h2⟩)
              · exact Or.inl h4
              · exact Or.inr ⟨h5 ▸ List.mem_cons_self _ _, h5 ▸ hin⟩
              · exact Or.inr ⟨List.mem_cons_of_mem _ h1, h2⟩
            · rintro (h1 | ⟨h1, h2⟩)
              · exact Or.inl (Or.inl h1)
              · rcases List.mem_cons.mp h1 with h3 | h3
                · exact Or.inl (Or.inr h3)
                · exact Or.inr ⟨h3, h2⟩
          · intro k hk
            rw [hget k (fun h1 => hk (List.mem_cons_of_mem _ h1))]
            exact Body.get_assign_other _ _ _ _ (fun h1 => hk (h1 ▸ List.mem_cons_self _ _))
          · intro hnd k hk hne
            rcases List.mem_cons.mp hk with h3 | h3
            · subst h3
              rw [hget k (List.nodup_cons.mp hnd).1]
              exact Body.get_assign_self _ _ _
            · exact hval (List.nodup_cons.mp hnd).2 k h3 hne


theorem Res.events_prepend {α : Type} (pre : List Event) (r : Res α) (h : r ≠ .stuck) :
    (r.prepend pre).events = pre ++ r.events := by
  cases r with
  | ok a fs evs => rfl
  | thrown e fs evs => rfl
  | stuck => exact absurd rfl h

theorem Res.mem_events_prepend {α : Type} (pre : List Event) (r : Res α) (ev : Event)
    (h : ev ∈ (r.prepend pre).events) : ev ∈ pre ∨ ev ∈ r.events := by
  cases r with
  | ok a fs evs => exact List.mem_append.mp h
  | thrown e fs evs => exact List.mem_append.mp h
  | stuck => exact absurd h (List.not_mem_nil _)

theorem emitsOnly_pure {α : Type} (S : Event → Prop) (a : α) :
    Act.emitsOnly S (pure a : Act α) := by
  intro fs ev h
  exact absurd h (List.not_mem_nil _)

theorem emitsOnly_raise {α : Type} (S : Event → Prop) (e : JsError) :
    Act.emitsOnly S (raise e : Act α) := by
  intro fs ev h
  exact absurd h (List.not_mem_nil _)

theorem emitsOnly_liftExcept {α : Type} (S : Event → Prop) (x : Except JsError α) :
    Act.emitsOnly S (liftExcept x) := by
  cases x with
  | ok a => exact emitsOnly_pure S a
  | error e => exact emitsOnly_raise S e

theorem emitsOnly_emit (S : Event → Prop) (ev : Event) (h : S ev) :
    Act.emitsOnly S (emit ev) := by
  intro fs ev2 h2
  have : ev2 = ev := by simpa [emit, Res.events] using h2
  exact this ▸ h

theorem emitsOnly_bind {α β : Type} (S : Event → Prop) (m : Act α) (f : α → Act β)
    (hm : Act.emitsOnly S m) (hf : ∀ a, Act.emitsOnly S (f a)) :
    Act.emitsOnly S (m >>= f) := by
  intro fs ev h
  rw [bind_run] at h
  cases hr : m fs with
  | stuck => simp [hr, Res.events] at h
  | thrown e fs1 evs1 =>
    simp only [hr] at h
    exact hm fs ev (by rw [hr]; exact h)
  | ok a fs1 evs1 =>
    simp only [hr] at h
    rcases Res.mem_events_prepend _ _ _ h with h1 | h1
    · exact hm fs ev (by rw [hr]; exact h1)
    · exact hf a fs1 ev h1

theorem emitsOnly_tryCatch {α : Type} (S : Event → Prop) (m : Act α) (h : JsError → Act α)
    (hm : Act.emitsOnly S m) (hh : ∀ e, Act.emitsOnly S (h e)) :
    Act.emitsOnly S (tryCatch m h) := by
  intro fs ev hev
  unfold tryCatch at hev
  cases hr : m fs with
  | stuck => simp [hr, Res.events] at hev
  | ok a fs1 evs1 =>
    simp only [hr] at hev
    exact hm fs ev (by rw [hr]; exact hev)
  | thrown e fs1 evs1 =>
    simp only [hr] at hev
    rcases Res.mem_events_prepend _ _ _ hev with h1 | h1
    · exact hm fs ev (by rw [hr]; exact h1)
    · exact hh e fs1 ev h1

theorem emitsOnly_ite {α : Type} (S : Event → Prop) (c : Prop) [Decidable c] (m1 m2 : Act α)
    (h1 : Act.emitsOnly S m1) (h2 : Act.emitsOnly S m2) :
    Act.emitsOnly S (if c then m1 else m2) := by
  split
  · exact h1
  · exact h2

theorem convertInput_local (P : Platform) (key : String) :
    Act.emitsOnly (fun ev => ev.isLocal = true) (convertInput P key) := by
  unfold convertInput
  simp only
  apply emitsOnly_ite
  · exact emitsOnly_bind _ _ _ (emitsOnly_liftExcept _ _) (fun _ => emitsOnly_pure _ _)
  apply emitsOnly_ite
  · exact emitsOnly_pure _ _
  apply emitsOnly_ite
  · refine emitsOnly_bind _ _ _ (emitsOnly_emit _ _ rfl) (fun _ => ?_)
    refine emitsOnly_tryCatch _ _ _ ?_ (fun e => ?_)
    · refine emitsOnly_bind _ _ _ (emitsOnly_liftExcept _ _) (fun v => ?_)
      cases v <;> exact emitsOnly_pure _ _
    · exact emitsOnly_bind _ _ _ (emitsOnly_emit _ _ rfl) (fun _ => emitsOnly_raise _ _)
  · exact emitsOnly_pure _ _

theorem addOptionalKeys_local (P : Platform) (keys : List String) :
    ∀ body, Act.emitsOnly (fun ev => ev.isLocal = true) (addOptionalKeys P keys body) := by
  induction keys with
  | nil => intro body; exact emitsOnly_pure _ _
  | cons key keys ih =>
    intro body
    unfold addOptionalKeys
    refine emitsOnly_bind _ _ _ ?_ (fun b => ih b)
    unfold addOptionalKey
    refine emitsOnly_bind _ _ _ (convertInput_local P key) (fun v => ?_)
    apply emitsOnly_ite <;> exact emitsOnly_pure _ _

theorem buildBody_local (P : Platform) :
    Act.emitsOnly (fun ev => ev.isLocal = true) (buildBody P) := by
  unfold buildBody
  refine emitsOnly_bind _ _ _ (addOptionalKeys_local P _ _) (fun b => ?_)
  exact emitsOnly_bind _ _ _ (emitsOnly_emit _ _ rfl) (fun _ => emitsOnly_pure _ _)

/-- What `runJob` does, by the outcome of building the body. -/
theorem runJob_run (P : Platform) (R : Remote) (accountId job_id : String) (fs : FS) :
    runJob P R accountId job_id fs =
      match buildBody P fs with
      | .ok body fs1 evs1 =>
        match R.post (.triggerRun accountId job_id) body with
        | .ok t => .ok t fs1 (evs1 ++ [.httpPost (.triggerRun accountId job_id) body])
        | .error e => .thrown e fs1 (evs1 ++ [.httpPost (.triggerRun accountId job_id) body])
      | .thrown e fs1 evs1 => .thrown e fs1 evs1
      | .stuck => .stuck := by
  unfold runJob
  rw [bind_run]
  cases buildBody P fs with
  | stuck => rfl
  | thrown e fs1 evs1 => rfl
  | ok body fs1 evs1 =>
    simp only [bind_run, emit_run]
    cases R.post (.triggerRun accountId job_id) body with
    | ok t => rfl
    | error e => rfl

theorem buildBody_of_post (P : Platform) (R : Remote) (accountId job_id : String) (fs : FS)
    (ep : Endpoint) (body : Body)
    (h : Event.httpPost ep body ∈ (runJob P R accountId job_id fs).events) :
    ∃ fs1 evs1, buildBody P fs = .ok body fs1 evs1 := by
  rw [runJob_run] at h
  have hloc := buildBody_local P fs
  cases hb : buildBody P fs with
  | stuck => simp [hb, Res.events] at h
  | thrown e fs1 evs1 =>
    rw [hb] at hloc
    simp only [hb, Res.events] at h
    have := hloc _ h
    simp [Event.isLocal] at this
  | ok body1 fs1 evs1 =>
    rw [hb] at hloc
    simp only [hb] at h
    have hmem : Event.httpPost ep body ∈ evs1 ++ [.httpPost (.triggerRun accountId job_id) body1] := by
      cases hp : R.post (.triggerRun accountId job_id) body1 with
      | ok t => simpa only [hp, Res.events] using h
      | error e => simpa only [hp, Res.events] using h
    rcases List.mem_append.mp hmem with h1 | h1
    · have := hloc _ h1
      simp [Event.isLocal] at this
    · have h2 := List.mem_singleton.mp h1
      injection h2 with _ h3
      exact ⟨fs1, evs1, by rw [h3]⟩

theorem buildBody_ok (P : Platform) (fs fs1 : FS) (body : Body) (evs : List Event)
    (h : buildBody P fs = .ok body fs1 evs) :
    (∀ k, k ∈ OPTIONAL_KEYS → (body.has k = true ↔ P.getInput k ≠ "")) ∧
    (∀ k, k ∈ OPTIONAL_KEYS → P.getInput k ≠ "" → body.get k = some (convertedValue P k)) ∧
    body.get "cause" = some (.str (P.getInput "cause")) := by
  unfold buildBody at h
  simp only [bind_run] at h
  cases hl : addOptionalKeys P OPTIONAL_KEYS [("cause", .str (P.getInput "cause"))] fs with
  | stuck => simp [hl] at h
  | thrown e fs2 evs2 => simp [hl] at h
  | ok b2 fs2 evs2 =>
    simp only [hl, emit_run, pure_run, Res.prepend, Res.ok.injEq] at h
    obtain ⟨rfl, _, _⟩ := h
    obtain ⟨hhas, hget, hval⟩ := addOptionalKeys_ok P OPTIONAL_KEYS _ _ _ _ _ hl
    refine ⟨?_, ?_, ?_⟩
    · intro k hk
      rw [hhas k]
      constructor
      · rintro (h1 | ⟨_, h2⟩)
        · have hkc : k = "cause" := by
            have := (Body.has_iff _ _).mp h1
            simpa [eq_comm] using this
          subst hkc
          exact absurd hk (by decide)
        · exact h2
      · intro h2
        exact Or.inr ⟨hk, h2⟩
    · intro k hk hne
      exact hval (by decide) k hk hne
    · rw [hget "cause" (by decide)]
      rfl

theorem Body.get_eq_none (b : Body) (k : String) (h : b.has k = false) : b.get k = none := by
  unfold Body.has at h
  unfold Body.get
  induction b with
  | nil => rfl
  | cons p ps ih =>
    obtain ⟨pk, pv⟩ := p
    simp only [List.any_cons, Bool.or_eq_false_iff] at h
    simp only [List.lookup_cons, beq_comm_false pk k h.1]
    exact ih h.2


theorem Res.prepend_nil {α : Type} (r : Res α) : r.prepend [] = r := by
  cases r <;> rfl

theorem convertInput_quiet (P : Platform) (key : String) (fs : FS)
    (hy : YAML_PARSE_OPTIONAL_KEYS.contains key = false)
    (hb : BOOL_OPTIONAL_KEYS.contains key = true →
      P.getInput key = "" ∨ ∃ b, getBooleanInput P key = .ok b) :
    ∃ v, convertInput P key fs = .ok v fs [] := by
  unfold convertInput
  by_cases hin : P.getInput key = ""
  · exact ⟨.str "", by simp [hin, pure_run]⟩
  · have hne : (P.getInput key != "") = true := by simpa using hin
    simp only [hne, Bool.true_and, hy, Bool.false_eq_true, if_false]
    by_cases hbk : BOOL_OPTIONAL_KEYS.contains key = true
    · rcases hb hbk with h1 | ⟨b, h1⟩
      · exact absurd h1 hin
      · refine ⟨.bool b, ?_⟩
        simp only [hbk, if_true, bind_run, h1, liftExcept_ok_run, pure_run, Res.prepend,
          List.append_nil]
    · simp only [hbk, Bool.false_eq_true, if_false]
      by_cases hi : INTEGER_OPTIONAL_KEYS.contains key = true
      · exact ⟨parseInt (P.getInput key), by simp only [hi, if_true, pure_run]⟩
      · exact ⟨.str (P.getInput key), by simp only [hi, Bool.false_eq_true, if_false, pure_run]⟩

theorem addOptionalKey_quiet (P : Platform) (body : Body) (key : String) (fs : FS)
    (hy : YAML_PARSE_OPTIONAL_KEYS.contains key = false)
    (hb : BOOL_OPTIONAL_KEYS.contains key = true →
      P.getInput key = "" ∨ ∃ b, getBooleanInput P key = .ok b) :
    ∃ body1, addOptionalKey P body key fs = .ok body1 fs [] := by
  obtain ⟨v, hv⟩ := convertInput_quiet P key fs hy hb
  unfold addOptionalKey
  rw [bind_run, hv]
  by_cases hn : notEmptyString v = true
  · exact ⟨body.assign key v, by
      simp only [hn, if_true, pure_run, Res.prepend, List.append_nil]⟩
  · exact ⟨body, by
      simp only [hn, Bool.false_eq_true, if_false, pure_run, Res.prepend, List.append_nil]⟩

theorem addOptionalKeys_quiet_append (P : Platform) (ks1 ks2 : List String) (fs : FS)
    (h : ∀ k, k ∈ ks1 → YAML_PARSE_OPTIONAL_KEYS.contains k = false ∧
      (BOOL_OPTIONAL_KEYS.contains k = true →
        P.getInput k = "" ∨ ∃ b, getBooleanInput P k = .ok b)) :
    ∀ body, ∃ body1,
      addOptionalKeys P (ks1 ++ ks2) body fs = addOptionalKeys P ks2 body1 fs := by
  induction ks1 with
  | nil => intro body; exact ⟨body, rfl⟩
  | cons k ks ih =>
    intro body
    obtain ⟨b1, hb1⟩ := addOptionalKey_quiet P body k fs (h k (List.mem_cons_self _ _)).1
      (h k (List.mem_cons_self _ _)).2
    obtain ⟨b2, hb2⟩ := ih (fun k2 hk2 => h k2 (List.mem_cons_of_mem _ hk2)) b1
    refine ⟨b2, ?_⟩
    simp only [List.cons_append, addOptionalKeys]
    rw [bind_run, hb1]
    simp only [Res.prepend_nil]
    exact hb2

theorem addOptionalKeys_steps_fail (P : Platform) (body : Body) (fs : FS) (e : JsError)
    (hne : P.getInput "steps_override" ≠ "")
    (hparse : P.yamlParse (P.getInput "steps_override") = .error e) :
    addOptionalKeys P ["steps_override"] body fs =
      .thrown e fs [.debug (P.getInput "steps_override"),
        .setFailed (some (yamlFailureMessage "steps_override"))] := by
  have hne2 : (P.getInput "steps_override" != "") = true := by simpa using hne
  have h1 : BOOL_OPTIONAL_KEYS.contains "steps_override" = false := by decide
  have h2 : INTEGER_OPTIONAL_KEYS.contains "steps_override" = false := by decide
  have h3 : YAML_PARSE_OPTIONAL_KEYS.contains "steps_override" = true := by decide
  simp only [addOptionalKeys, addOptionalKey, convertInput, hne2, h1, h2, h3, Bool.true_and,
    Bool.false_eq_true, if_false, if_true, bind_run, emit_run, tryCatch, hparse,
    liftExcept_error_run, raise_run, Res.prepend, List.append_nil, List.nil_append,
    List.singleton_append]

theorem addOptionalKeys_bool_fail (P : Platform) (body : Body) (fs : FS) (keys : List String)
    (e : JsError)
    (hne : P.getInput "generate_docs_override" ≠ "")
    (hbad : getBooleanInput P "generate_docs_override" = .error e) :
    addOptionalKeys P ("generate_docs_override" :: keys) body fs = .thrown e fs [] := by
  have hne2 : (P.getInput "generate_docs_override" != "") = true := by simpa using hne
  have h1 : BOOL_OPTIONAL_KEYS.contains "generate_docs_override" = true := by decide
  simp only [addOptionalKeys, addOptionalKey, convertInput, hne2, h1, Bool.true_and,
    if_true, bind_run, hbad, liftExcept_error_run]

/-- The result of `buildBody` when the structured override does not parse. -/
theorem buildBody_steps_fail (P : Platform) (fs : FS) (e : JsError)
    (hne : P.getInput "steps_override" ≠ "")
    (hparse : P.yamlParse (P.getInput "steps_override") = .error e) :
    ((P.getInput "generate_docs_override" = "" ∨
        ∃ b, getBooleanInput P "generate_docs_override" = .ok b) →
      buildBody P fs = .thrown e fs [.debug (P.getInput "steps_override"),
        .setFailed (some (yamlFailureMessage "steps_override"))]) ∧
    (∀ e2, P.getInput "generate_docs_override" ≠ "" →
      getBooleanInput P "generate_docs_override" = .error e2 →
      buildBody P fs = .thrown e2 fs []) := by
  constructor
  · intro hb
    have hsplit : OPTIONAL_KEYS = OPTIONAL_KEYS.take 8 ++ ["steps_override"] := by decide
    obtain ⟨b1, hb1⟩ := addOptionalKeys_quiet_append P (OPTIONAL_KEYS.take 8) ["steps_override"] fs
      (by
        intro k hk
        have hk2 : k ∈ ["git_sha", "git_branch", "schema_override", "dbt_version_override",
            "threads_override", "target_name_override", "generate_docs_override",
            "timeout_seconds_override"] := hk
        simp only [List.mem_cons, List.mem_singleton, List.not_mem_nil, or_false] at hk2
        rcases hk2 with rfl | rfl | rfl | rfl | rfl | rfl | rfl | rfl
        all_goals first
          | exact ⟨by decide, fun h => absurd h (by decide)⟩
          | exact ⟨by decide, fun _ => hb⟩)
      [("cause", .str (P.getInput "cause"))]
    unfold buildBody
    rw [bind_run, hsplit, hb1, addOptionalKeys_steps_fail P b1 fs e hne hparse]
  · intro e2 hne2 hbad
    have hsplit : OPTIONAL_KEYS = OPTIONAL_KEYS.take 6 ++
        ("generate_docs_override" :: ["timeout_seconds_override", "steps_override"]) := by decide
    obtain ⟨b1, hb1⟩ := addOptionalKeys_quiet_append P (OPTIONAL_KEYS.take 6)
      ("generate_docs_override" :: ["timeout_seconds_override", "steps_override"]) fs
      (by
        intro k hk
        have hk2 : k ∈ ["git_sha", "git_branch", "schema_override", "dbt_version_override",
            "threads_override", "target_name_override"] := hk
        simp only [List.mem_cons, List.mem_singleton, List.not_mem_nil, or_false] at hk2
        rcases hk2 with rfl | rfl | rfl | rfl | rfl | rfl
        all_goals exact ⟨by decide, fun h => absurd h (by decide)⟩)
      [("cause", .str (P.getInput "cause"))]
    unfold buildBody
    rw [bind_run, hsplit, hb1, addOptionalKeys_bool_fail P b1 fs _ e2 hne2 hbad]


/-- What `executeAction` does up to the poll loop. -/
theorem executeAction_run (P : Platform) (R : Remote) (answers : List FetchOutcome) (fs : FS) :
    executeAction P R answers fs =
      match getBooleanInput P "failure_on_error" with
      | .error e => .thrown e fs []
      | .ok failure_on_error =>
        match runJob P R (P.getInput "dbt_cloud_account_id")
            (P.getInput "dbt_cloud_current_job_id") fs with
        | .stuck => .stuck
        | .thrown e fs1 evs1 => .thrown e fs1 evs1
        | .ok t fs1 evs1 =>
          Res.prepend (evs1 ++ [.info ("Triggered job. " ++ t.href)])
            (match pollLoop P (P.getInput "dbt_cloud_account_id") t.id answers fs1 with
              | .stuck => .stuck
              | .thrown e fs2 evs2 => .thrown e fs2 evs2
              | .ok (res, rest) fs2 evs2 =>
                Res.prepend evs2
                  (afterPoll P R (P.getInput "dbt_cloud_account_id")
                    (P.getInput "dbt_cloud_base_job_id") t.id failure_on_error res rest fs2)) := by
  unfold executeAction
  simp only [bind_run]
  cases getBooleanInput P "failure_on_error" with
  | error e => rfl
  | ok f =>
    simp only [liftExcept_ok_run]
    cases runJob P R (P.getInput "dbt_cloud_account_id")
        (P.getInput "dbt_cloud_current_job_id") fs with
    | stuck => rfl
    | thrown e fs1 evs1 => rfl
    | ok t fs1 evs1 =>
      simp only [emit_run, Res.prepend, List.nil_append]
      cases pollLoop P (P.getInput "dbt_cloud_account_id") t.id answers fs1 with
      | stuck => rfl
      | thrown e fs2 evs2 => simp [Res.prepend]
      | ok p fs2 evs2 =>
        obtain ⟨res, rest⟩ := p
        simp only
        cases afterPoll P R (P.getInput "dbt_cloud_account_id")
            (P.getInput "dbt_cloud_base_job_id") t.id f res rest fs2 <;>
          simp [Res.prepend]


/-! ## Job trigger: the claims -/

/-- C3: whenever `runJob` reaches the POST, the submitted body contains an
optional key exactly when the input for that key is non-empty (an empty input
yields no entry at all); `generate_docs_override` given as `false` yields the
entry `false`, `threads_override` or `timeout_seconds_override` given as `0`
yields the entry `0`; and the body always contains `cause`. -/
theorem runJob_body_has_key_iff_input_nonempty (P : Platform) (R : Remote)
    (accountId job_id : String) (fs : FS) (ep : Endpoint) (body : Body)
    (hpost : Event.httpPost ep body ∈ (runJob P R accountId job_id fs).events) :
    (∀ k, k ∈ OPTIONAL_KEYS → (body.has k = true ↔ P.getInput k ≠ "")) ∧
    (∀ k, k ∈ OPTIONAL_KEYS → P.getInput k = "" → body.get k = none) ∧
    (P.getInput "generate_docs_override" = "false" →
      body.get "generate_docs_override" = some (.bool false)) ∧
    (P.getInput "threads_override" = "0" → body.get "threads_override" = some (.num 0)) ∧
    (P.getInput "timeout_seconds_override" = "0" →
      body.get "timeout_seconds_override" = some (.num 0)) ∧
    body.has "cause" = true ∧
    body.get "cause" = some (.str (P.getInput "cause")) := by
  obtain ⟨fs1, evs1, hb⟩ := buildBody_of_post P R accountId job_id fs ep body hpost
  obtain ⟨hhas, hval, hcause⟩ := buildBody_ok P fs fs1 body evs1 hb
  refine ⟨hhas, ?_, ?_, ?_, ?_, ?_, hcause⟩
  · intro k hk hin
    apply Body.get_eq_none
    cases hh : body.has k with
    | false => rfl
    | true => exact absurd hin ((hhas k hk).mp hh)
  · intro hin
    rw [hval "generate_docs_override" (by decide) (by rw [hin]; decide)]
    simp only [convertedValue, hin]
    rfl
  · intro hin
    rw [hval "threads_override" (by decide) (by rw [hin]; decide)]
    simp only [convertedValue, hin]
    rfl
  · intro hin
    rw [hval "timeout_seconds_override" (by decide) (by rw [hin]; decide)]
    simp only [convertedValue, hin]
    rfl
  · cases hh : body.has "cause" with
    | true => rfl
    | false =>
      have := Body.get_eq_none body "cause" hh
      rw [hcause] at this
      cases this

/-- C3, at an example: the POST of `triggerExample` carries `triggerExampleBody`. -/
theorem runJob_body_has_key_iff_input_nonempty_witness :
    Event.httpPost (.triggerRun "7" "9") triggerExampleBody ∈
        (runJob triggerExample (exampleRemote []) "7" "9" emptyFS).events ∧
      ((∀ k, k ∈ OPTIONAL_KEYS →
          (triggerExampleBody.has k = true ↔ triggerExample.getInput k ≠ "")) ∧
        (∀ k, k ∈ OPTIONAL_KEYS → triggerExample.getInput k = "" →
          triggerExampleBody.get k = none) ∧
        (triggerExample.getInput "generate_docs_override" = "false" →
          triggerExampleBody.get "generate_docs_override" = some (.bool false)) ∧
        (triggerExample.getInput "threads_override" = "0" →
          triggerExampleBody.get "threads_override" = some (.num 0)) ∧
        (triggerExample.getInput "timeout_seconds_override" = "0" →
          triggerExampleBody.get "timeout_seconds_override" = some (.num 0)) ∧
        triggerExampleBody.has "cause" = true ∧
        triggerExampleBody.get "cause" = some (.str (triggerExample.getInput "cause"))) :=
  have hpost : Event.httpPost (.triggerRun "7" "9") triggerExampleBody ∈
      (runJob triggerExample (exampleRemote []) "7" "9" emptyFS).events := by
    have hev : (runJob triggerExample (exampleRemote []) "7" "9" emptyFS).events =
        [.debug "a", .debug "Run job body:\n<body>",
          .httpPost (.triggerRun "7" "9") triggerExampleBody] := by rfl
    rw [hev]
    simp
  ⟨hpost, runJob_body_has_key_iff_input_nonempty triggerExample (exampleRemote []) "7" "9"
    emptyFS _ _ hpost⟩

/-- C8: when `runJob` reaches the POST with a non-empty `steps_override`, a
parse that yields a plain string `s` puts the one-element list `[s]` in the
body, and a parse that yields any other value puts that value unchanged. -/
theorem runJob_steps_override_scalar_wrapped (P : Platform) (R : Remote)
    (accountId job_id : String) (fs : FS) (ep : Endpoint) (body : Body)
    (hpost : Event.httpPost ep body ∈ (runJob P R accountId job_id fs).events)
    (hne : P.getInput "steps_override" ≠ "") :
    (∀ s, P.yamlParse (P.getInput "steps_override") = .ok (.str s) →
      body.get "steps_override" = some (.list [.str s])) ∧
    (∀ v, P.yamlParse (P.getInput "steps_override") = .ok v → (∀ s, v ≠ .str s) →
      body.get "steps_override" = some v) := by
  obtain ⟨fs1, evs1, hb⟩ := buildBody_of_post P R accountId job_id fs ep body hpost
  obtain ⟨_, hval, _⟩ := buildBody_ok P fs fs1 body evs1 hb
  have h := hval "steps_override" (by decide) hne
  have h1 : BOOL_OPTIONAL_KEYS.contains "steps_override" = false := by decide
  have h2 : INTEGER_OPTIONAL_KEYS.contains "steps_override" = false := by decide
  have h3 : YAML_PARSE_OPTIONAL_KEYS.contains "steps_override" = true := by decide
  simp only [convertedValue, h1, h2, h3, Bool.false_eq_true, if_false, if_true] at h
  constructor
  · intro s hs
    rw [h, hs]
  · intro v hv hns
    rw [h, hv]
    cases v with
    | str s => exact absurd rfl (hns s)
    | _ => rfl

/-- C8, at an example: the scalar `a` is submitted as the list `[a]`. -/
theorem runJob_steps_override_scalar_wrapped_witness :
    (Event.httpPost (.triggerRun "7" "9") triggerExampleBody ∈
        (runJob triggerExample (exampleRemote []) "7" "9" emptyFS).events ∧
      triggerExample.getInput "steps_override" ≠ "") ∧
    ((∀ s, triggerExample.yamlParse (triggerExample.getInput "steps_override") = .ok (.str s) →
        triggerExampleBody.get "steps_override" = some (.list [.str s])) ∧
      (∀ v, triggerExample.yamlParse (triggerExample.getInput "steps_override") = .ok v →
        (∀ s, v ≠ .str s) → triggerExampleBody.get "steps_override" = some v)) :=
  have hpost : Event.httpPost (.triggerRun "7" "9") triggerExampleBody ∈
      (runJob triggerExample (exampleRemote []) "7" "9" emptyFS).events := by
    have hev : (runJob triggerExample (exampleRemote []) "7" "9" emptyFS).events =
        [.debug "a", .debug "Run job body:\n<body>",
          .httpPost (.triggerRun "7" "9") triggerExampleBody] := by rfl
    rw [hev]
    simp
  have hne : triggerExample.getInput "steps_override" ≠ "" := by decide
  ⟨⟨hpost, hne⟩, runJob_steps_override_scalar_wrapped triggerExample (exampleRemote []) "7" "9"
    emptyFS _ _ hpost hne⟩

/-- A list given as `steps_override` reaches the body unchanged. -/
theorem runJob_steps_override_list_example :
    (runJob stepsListExample (exampleRemote []) "7" "9" emptyFS).events =
      [.debug "[dbt run, dbt test]", .debug "Run job body:\n<body>",
        .httpPost (.triggerRun "7" "9")
          [("cause", .str ""), ("steps_override", .list [.str "dbt run", .str "dbt test"])]] := by
  rfl


/-- C10, as stated, fails: of the nine optional keys exactly one, not three,
takes the boolean branch; an input `true` for any other plain key is submitted
as the string `true`. -/
theorem optional_keys_three_booleans_counterexample :
    ¬ ((OPTIONAL_KEYS.filter (fun k => BOOL_OPTIONAL_KEYS.contains k)).length = 3) ∧
    (runJob allTrueExample (exampleRemote []) "7" "9" emptyFS).events =
      [.debug "true", .debug "Run job body:\n<body>",
        .httpPost (.triggerRun "7" "9") allTrueExampleBody] := by
  constructor
  · decide
  · rfl

/-- C10 (amended): of the nine optional keys one (`generate_docs_override`) is
parsed as a boolean, two (`threads_override`, `timeout_seconds_override`) as
integers, one (`steps_override`) as a structured value; whenever `runJob`
reaches the POST, the non-empty input of each of these is submitted as the
parsed value and the non-empty input of each of the five other keys is
submitted as the unmodified input string. -/
theorem runJob_key_kinds (P : Platform) (R : Remote)
    (accountId job_id : String) (fs : FS) (ep : Endpoint) (body : Body)
    (hpost : Event.httpPost ep body ∈ (runJob P R accountId job_id fs).events) :
    OPTIONAL_KEYS.length = 9 ∧
    OPTIONAL_KEYS.filter (fun k => BOOL_OPTIONAL_KEYS.contains k) = ["generate_docs_override"] ∧
    OPTIONAL_KEYS.filter (fun k => INTEGER_OPTIONAL_KEYS.contains k) =
      ["threads_override", "timeout_seconds_override"] ∧
    OPTIONAL_KEYS.filter (fun k => YAML_PARSE_OPTIONAL_KEYS.contains k) = ["steps_override"] ∧
    (P.getInput "generate_docs_override" ≠ "" →
      body.get "generate_docs_override" =
        some (.bool (["true", "True", "TRUE"].contains (P.getInput "generate_docs_override")))) ∧
    (∀ k, k ∈ INTEGER_OPTIONAL_KEYS → P.getInput k ≠ "" →
      body.get k = some (parseInt (P.getInput k))) ∧
    (P.getInput "steps_override" ≠ "" →
      ∀ v, P.yamlParse (P.getInput "steps_override") = .ok v →
        body.get "steps_override" =
          some (match v with
            | .str s => .list [.str s]
            | w => w)) ∧
    (∀ k, k ∈ OPTIONAL_KEYS → k ∉ BOOL_OPTIONAL_KEYS → k ∉ INTEGER_OPTIONAL_KEYS →
      k ∉ YAML_PARSE_OPTIONAL_KEYS → P.getInput k ≠ "" →
      body.get k = some (.str (P.getInput k))) := by
  obtain ⟨fs1, evs1, hb⟩ := buildBody_of_post P R accountId job_id fs ep body hpost
  obtain ⟨_, hval, _⟩ := buildBody_ok P fs fs1 body evs1 hb
  refine ⟨by decide, by decide, by decide, by decide, ?_, ?_, ?_, ?_⟩
  · intro hne
    rw [hval _ (by decide) hne]
    have h1 : BOOL_OPTIONAL_KEYS.contains "generate_docs_override" = true := by decide
    simp only [convertedValue, h1, if_true]
  · intro k hk hne
    have hk2 : k = "threads_override" ∨ k = "timeout_seconds_override" := by
      simpa [INTEGER_OPTIONAL_KEYS] using hk
    rcases hk2 with rfl | rfl
    · rw [hval _ (by decide) hne]
      have h1 : BOOL_OPTIONAL_KEYS.contains "threads_override" = false := by decide
      have h2 : INTEGER_OPTIONAL_KEYS.contains "threads_override" = true := by decide
      simp only [convertedValue, h1, h2, Bool.false_eq_true, if_false, if_true]
    · rw [hval _ (by decide) hne]
      have h1 : BOOL_OPTIONAL_KEYS.contains "timeout_seconds_override" = false := by decide
      have h2 : INTEGER_OPTIONAL_KEYS.contains "timeout_seconds_override" = true := by decide
      simp only [convertedValue, h1, h2, Bool.false_eq_true, if_false, if_true]
  · intro hne v hv
    rw [hval _ (by decide) hne]
    have h1 : BOOL_OPTIONAL_KEYS.contains "steps_override" = false := by decide
    have h2 : INTEGER_OPTIONAL_KEYS.contains "steps_override" = false := by decide
    have h3 : YAML_PARSE_OPTIONAL_KEYS.contains "steps_override" = true := by decide
    simp only [convertedValue, h1, h2, h3, Bool.false_eq_true, if_false, if_true, hv]
    cases v <;> rfl
  · intro k hk hb hi hy hne
    rw [hval k hk hne]
    have h1 : BOOL_OPTIONAL_KEYS.contains k = false := by simpa using hb
    have h2 : INTEGER_OPTIONAL_KEYS.contains k = false := by simpa using hi
    have h3 : YAML_PARSE_OPTIONAL_KEYS.contains k = false := by simpa using hy
    simp only [convertedValue, h1, h2, h3, Bool.false_eq_true, if_false]

/-- C10 (amended), at an example: every optional input is the text `true`. -/
theorem runJob_key_kinds_witness :
    Event.httpPost (.triggerRun "7" "9") allTrueExampleBody ∈
        (runJob allTrueExample (exampleRemote []) "7" "9" emptyFS).events ∧
      allTrueExampleBody.get "generate_docs_override" = some (.bool true) ∧
      allTrueExampleBody.get "threads_override" = some (parseInt "true") ∧
      allTrueExampleBody.get "git_branch" = some (.str "true") :=
  have hpost : Event.httpPost (.triggerRun "7" "9") allTrueExampleBody ∈
      (runJob allTrueExample (exampleRemote []) "7" "9" emptyFS).events := by
    have hev : (runJob allTrueExample (exampleRemote []) "7" "9" emptyFS).events =
        [.debug "true", .debug "Run job body:\n<body>",
          .httpPost (.triggerRun "7" "9") allTrueExampleBody] := by rfl
    rw [hev]
    simp
  have h := runJob_key_kinds allTrueExample (exampleRemote []) "7" "9" emptyFS _ _ hpost
  ⟨hpost, h.2.2.2.2.1 (by decide), h.2.2.2.2.2.1 "threads_override" (by decide) (by decide),
    h.2.2.2.2.2.2.2 "git_branch" (by decide) (by decide) (by decide) (by decide) (by decide)⟩

/-- C7, as stated, fails: with a malformed `steps_override` and a
`generate_docs_override` that is not an accepted boolean spelling, `runJob`
throws the `TypeError` of the boolean input first; it emits no failure message
and does not rethrow the parse error. -/
theorem runJob_malformed_steps_message_counterexample :
    badStepsBadBoolExample.getInput "steps_override" ≠ "" ∧
    badStepsBadBoolExample.yamlParse (badStepsBadBoolExample.getInput "steps_override") =
      .error { text := "YAMLParseError: Flow sequence must end with a ]",
               responseStatus := none } ∧
    runJob badStepsBadBoolExample (exampleRemote []) "7" "9" emptyFS =
      .thrown
        { text := "TypeError: Input does not meet YAML 1.2 \"Core Schema\" specification: " ++
            "generate_docs_override" ++
            "\nSupport boolean input list: `true | True | TRUE | false | False | FALSE`"
          responseStatus := none }
        emptyFS [] := by
  refine ⟨by decide, rfl, rfl⟩

/-- C7 (amended): with a non-empty `steps_override` whose parse fails, `runJob`
never issues the POST: it throws, having emitted only debug and failure
events. When `generate_docs_override` is empty or an accepted boolean
spelling, it marks the action failed with the message naming the key and asking
for valid YAML in a string, and rethrows the parse error. `executeAction`
then throws as well: no poll, no artifact fetch, no outputs. -/
theorem malformed_steps_override_aborts (P : Platform) (R : Remote)
    (answers : List FetchOutcome) (fs : FS) (e : JsError)
    (hne : P.getInput "steps_override" ≠ "")
    (hparse : P.yamlParse (P.getInput "steps_override") = .error e) :
    (∀ accountId job_id, ∃ e2 evs, runJob P R accountId job_id fs = .thrown e2 fs evs ∧
      ∀ ev, ev ∈ evs → ev.isLocal = true) ∧
    ((P.getInput "generate_docs_override" = "" ∨
        ∃ b, getBooleanInput P "generate_docs_override" = .ok b) →
      ∀ accountId job_id, runJob P R accountId job_id fs =
        .thrown e fs [.debug (P.getInput "steps_override"),
          .setFailed (some ("Could not interpret steps_override correctly. " ++
            "Pass valid YAML in a string.\n Example:\n  " ++
            "property: '['a string', 'another string']'"))]) ∧
    (∃ e2 evs, executeAction P R answers fs = .thrown e2 fs evs ∧
      ∀ ev, ev ∈ evs → ev.isLocal = true) := by
  obtain ⟨hgood, hbad⟩ := buildBody_steps_fail P fs e hne hparse
  have hrun : ∀ accountId job_id, ∃ e2 evs, runJob P R accountId job_id fs = .thrown e2 fs evs ∧
      ∀ ev, ev ∈ evs → ev.isLocal = true := by
    intro accountId job_id
    rw [runJob_run]
    by_cases hin : P.getInput "generate_docs_override" = ""
    · rw [hgood (Or.inl hin)]
      exact ⟨e, _, rfl, by
        intro ev hev
        simp only [List.mem_cons, List.mem_singleton, List.not_mem_nil, or_false] at hev
        rcases hev with rfl | rfl <;> rfl⟩
    · cases hg : getBooleanInput P "generate_docs_override" with
      | ok b =>
        rw [hgood (Or.inr ⟨b, hg⟩)]
        exact ⟨e, _, rfl, by
          intro ev hev
          simp only [List.mem_cons, List.mem_singleton, List.not_mem_nil, or_false] at hev
          rcases hev with rfl | rfl <;> rfl⟩
      | error e2 =>
        rw [hbad e2 hin hg]
        exact ⟨e2, [], rfl, fun ev hev => absurd hev (List.not_mem_nil _)⟩
  refine ⟨hrun, ?_, ?_⟩
  · intro hb accountId job_id
    rw [runJob_run, hgood hb]
    rfl
  · rw [executeAction_run]
    cases getBooleanInput P "failure_on_error" with
    | error e3 => exact ⟨e3, [], rfl, fun ev hev => absurd hev (List.not_mem_nil _)⟩
    | ok f =>
      obtain ⟨e2, evs, h1, h2⟩ := hrun (P.getInput "dbt_cloud_account_id")
        (P.getInput "dbt_cloud_current_job_id")
      simp only [h1]
      exact ⟨e2, evs, rfl, h2⟩

/-- C7 (amended), at an example: the parse of `[` fails. -/
theorem malformed_steps_override_aborts_witness :
    (badStepsExample.getInput "steps_override" ≠ "" ∧
      badStepsExample.yamlParse (badStepsExample.getInput "steps_override") =
        .error { text := "YAMLParseError: Flow sequence must end with a ]",
                 responseStatus := none }) ∧
    (runJob badStepsExample (exampleRemote []) "7" "9" emptyFS =
        .thrown { text := "YAMLParseError: Flow sequence must end with a ]",
                  responseStatus := none } emptyFS
          [.debug "[",
            .setFailed (some ("Could not interpret steps_override correctly. " ++
              "Pass valid YAML in a string.\n Example:\n  " ++
              "property: '['a string', 'another string']'"))] ∧
      ∃ e2 evs, executeAction badStepsExample (exampleRemote []) [] emptyFS =
        .thrown e2 emptyFS evs ∧ ∀ ev, ev ∈ evs → ev.isLocal = true) :=
  have hne : badStepsExample.getInput "steps_override" ≠ "" := by decide
  have hparse : badStepsExample.yamlParse (badStepsExample.getInput "steps_override") =
      .error { text := "YAMLParseError: Flow sequence must end with a ]",
               responseStatus := none } := rfl
  have h := malformed_steps_override_aborts badStepsExample (exampleRemote []) [] emptyFS _
    hne hparse
  ⟨⟨hne, hparse⟩, h.2.1 (Or.inl (by decide)) "7" "9", h.2.2⟩


/-! ## Run poller: lemmas -/

/-- The log line of `getJobRun` for a failed fetch. -/
theorem getJobRun_failed_run (accountId : String) (run_id : Nat) (e : JsError) (fs : FS) :
    ∃ msg, getJobRun accountId run_id (.failed e) fs =
      .ok none fs [.httpGet (.run accountId run_id), .consoleError msg] := by
  exact ⟨_, rfl⟩

theorem getJobRun_ok_run (accountId : String) (run_id : Nat) (r : RunRecord) (fs : FS) :
    getJobRun accountId run_id (.ok r) fs = .ok (some r) fs [.httpGet (.run accountId run_id)] :=
  rfl

/-- One iteration of the poll loop on a failed fetch. -/
theorem pollLoop_failed (P : Platform) (accountId : String) (runId : Nat) (e : JsError)
    (rest : List FetchOutcome) (fs : FS) :
    ∃ msg, pollLoop P accountId runId (.failed e :: rest) fs =
      (pollLoop P accountId runId rest fs).prepend
        [.sleep (P.times (P.toNumber (P.getInput "interval")) (.finite 1000)), .httpGet (.run accountId runId),
          .consoleError msg] := by
  obtain ⟨msg, hmsg⟩ := getJobRun_failed_run accountId runId e fs
  refine ⟨msg, ?_⟩
  simp only [pollLoop, bind_run, emit_run, hmsg, Res.prepend, List.singleton_append]
  cases pollLoop P accountId runId rest fs <;> simp [Res.prepend]

/-- One iteration of the poll loop on a fetched record. -/
theorem pollLoop_ok (P : Platform) (accountId : String) (runId : Nat) (r : RunRecord)
    (rest : List FetchOutcome) (fs : FS) (wait : Bool)
    (hwait : getBooleanInput P "wait_for_job" = .ok wait) :
    ∃ msg, pollLoop P accountId runId (.ok r :: rest) fs =
      if FetchOutcome.stops wait (.ok r) then
        .ok (r, rest) fs
          [.sleep (P.times (P.toNumber (P.getInput "interval")) (.finite 1000)), .httpGet (.run accountId runId),
            .info ("Run: " ++ toString r.id ++ " - " ++ showStatus (RUN_STATUS r.status)),
            .info msg]
      else
        (pollLoop P accountId runId rest fs).prepend
          [.sleep (P.times (P.toNumber (P.getInput "interval")) (.finite 1000)), .httpGet (.run accountId runId),
            .info ("Run: " ++ toString r.id ++ " - " ++ showStatus (RUN_STATUS r.status))] := by
  cases wait with
  | false =>
    refine ⟨"Not waiting for job to finish. Relevant run logs will be omitted.", ?_⟩
    simp only [pollLoop, bind_run, emit_run, getJobRun_ok_run, hwait, liftExcept_ok_run,
      Res.prepend, FetchOutcome.stops, Bool.not_false, Bool.true_or, if_true, pure_run,
      Bool.false_eq_true, if_false]
    rfl
  | true =>
    refine ⟨"job finished with '" ++ showStatus (RUN_STATUS r.status) ++ "'", ?_⟩
    cases hc : r.is_complete with
    | true =>
      simp only [pollLoop, bind_run, emit_run, getJobRun_ok_run, hwait, liftExcept_ok_run,
        Res.prepend, FetchOutcome.stops, hc, Bool.not_true, Bool.or_true, if_true, pure_run]
      rfl
    | false =>
      simp only [pollLoop, bind_run, emit_run, getJobRun_ok_run, hwait, liftExcept_ok_run,
        Res.prepend, FetchOutcome.stops, hc, Bool.not_true, Bool.or_false, if_true,
        Bool.false_eq_true, if_false]
      cases pollLoop P accountId runId rest fs <;> simp [Res.prepend]


/-- The poll loop run forward: on answers that do not stop the loop followed
by one that does, it ends on that one, with one block of trace per fetch. -/
theorem pollLoop_of_split (P : Platform) (accountId : String) (runId : Nat) (wait : Bool)
    (hwait : getBooleanInput P "wait_for_job" = .ok wait) (fs : FS) (r : RunRecord)
    (rest : List FetchOutcome) (hr : FetchOutcome.stops wait (.ok r) = true) :
    ∀ pre : List FetchOutcome, (∀ o, o ∈ pre → o.stops wait = false) →
      ∃ logs : List (List Event),
        logs.length = pre.length + 1 ∧
        (∀ seg, seg ∈ logs → ∀ ev, ev ∈ seg → ev.isLog = true) ∧
        pollLoop P accountId runId (pre ++ .ok r :: rest) fs =
          .ok (r, rest) fs
            (pollTrace (P.times (P.toNumber (P.getInput "interval")) (.finite 1000)) (.run accountId runId) logs) := by
  intro pre
  induction pre with
  | nil =>
    intro _
    obtain ⟨msg, hmsg⟩ := pollLoop_ok P accountId runId r rest fs wait hwait
    rw [hr] at hmsg
    simp only [if_true] at hmsg
    refine ⟨[[.info ("Run: " ++ toString r.id ++ " - " ++ showStatus (RUN_STATUS r.status)),
      .info msg]], rfl, ?_, ?_⟩
    · intro seg hseg ev hev
      have hs := List.mem_singleton.mp hseg
      subst hs
      simp only [List.mem_cons, List.mem_singleton, List.not_mem_nil, or_false] at hev
      rcases hev with rfl | rfl <;> rfl
    · simpa [pollTrace] using hmsg
  | cons o pre ih =>
    intro hpre
    obtain ⟨logs, hlen, hlog, hrun⟩ := ih (fun o2 ho2 => hpre o2 (List.mem_cons_of_mem _ ho2))
    have ho := hpre o (List.mem_cons_self _ _)
    cases o with
    | failed e =>
      obtain ⟨msg, hmsg⟩ := pollLoop_failed P accountId runId e (pre ++ .ok r :: rest) fs
      refine ⟨[.consoleError msg] :: logs, by simp [hlen], ?_, ?_⟩
      · intro seg hseg ev hev
        rcases List.mem_cons.mp hseg with h1 | h1
        · subst h1
          have := List.mem_singleton.mp hev
          subst this
          rfl
        · exact hlog seg h1 ev hev
      · rw [List.cons_append, hmsg, hrun]
        simp [Res.prepend, pollTrace]
    | ok r2 =>
      obtain ⟨msg, hmsg⟩ := pollLoop_ok P accountId runId r2 (pre ++ .ok r :: rest) fs wait hwait
      rw [ho] at hmsg
      simp only [Bool.false_eq_true, if_false] at hmsg
      refine ⟨[.info ("Run: " ++ toString r2.id ++ " - " ++ showStatus (RUN_STATUS r2.status))]
        :: logs, by simp [hlen], ?_, ?_⟩
      · intro seg hseg ev hev
        rcases List.mem_cons.mp hseg with h1 | h1
        · subst h1
          have := List.mem_singleton.mp hev
          subst this
          rfl
        · exact hlog seg h1 ev hev
      · rw [List.cons_append, hmsg, hrun]
        simp [Res.prepend, pollTrace]

/-- The poll loop run backward: when it ends, it ends on the first answer that
stops it. -/
theorem split_of_pollLoop (P : Platform) (accountId : String) (runId : Nat) (wait : Bool)
    (hwait : getBooleanInput P "wait_for_job" = .ok wait) (fs : FS) :
    ∀ (answers : List FetchOutcome) (r : RunRecord) (rest : List FetchOutcome) (fs1 : FS)
      (evs : List Event),
      pollLoop P accountId runId answers fs = .ok (r, rest) fs1 evs →
      ∃ pre, answers = pre ++ .ok r :: rest ∧ (∀ o, o ∈ pre → o.stops wait = false) ∧
        FetchOutcome.stops wait (.ok r) = true := by
  intro answers
  induction answers with
  | nil =>
    intro r rest fs1 evs h
    simp [pollLoop] at h
  | cons o os ih =>
    intro r rest fs1 evs h
    cases o with
    | failed e =>
      obtain ⟨msg, hmsg⟩ := pollLoop_failed P accountId runId e os fs
      rw [hmsg] at h
      cases hrec : pollLoop P accountId runId os fs with
      | stuck => simp [hrec, Res.prepend] at h
      | thrown e2 fs2 evs2 => simp [hrec, Res.prepend] at h
      | ok p fs2 evs2 =>
        simp only [hrec, Res.prepend, Res.ok.injEq] at h
        obtain ⟨rfl, rfl, _⟩ := h
        obtain ⟨pre, hsplit, hpre, hstop⟩ := ih r rest fs2 evs2 hrec
        refine ⟨.failed e :: pre, by rw [hsplit]; rfl, ?_, hstop⟩
        intro o2 ho2
        rcases List.mem_cons.mp ho2 with h1 | h1
        · subst h1; rfl
        · exact hpre o2 h1
    | ok r2 =>
      obtain ⟨msg, hmsg⟩ := pollLoop_ok P accountId runId r2 os fs wait hwait
      rw [hmsg] at h
      cases hs : FetchOutcome.stops wait (.ok r2) with
      | true =>
        simp only [hs, if_true, Res.ok.injEq, Prod.mk.injEq] at h
        obtain ⟨⟨rfl, rfl⟩, _, _⟩ := h
        exact ⟨[], rfl, fun o2 ho2 => absurd ho2 (List.not_mem_nil _), hs⟩
      | false =>
        simp only [hs, Bool.false_eq_true, if_false] at h
        cases hrec : pollLoop P accountId runId os fs with
        | stuck => simp [hrec, Res.prepend] at h
        | thrown e2 fs2 evs2 => simp [hrec, Res.prepend] at h
        | ok p fs2 evs2 =>
          simp only [hrec, Res.prepend, Res.ok.injEq] at h
          obtain ⟨rfl, rfl, _⟩ := h
          obtain ⟨pre, hsplit, hpre, hstop⟩ := ih r rest fs2 evs2 hrec
          refine ⟨.ok r2 :: pre, by rw [hsplit]; rfl, ?_, hstop⟩
          intro o2 ho2
          rcases List.mem_cons.mp ho2 with h1 | h1
          · subst h1; exact hs
          · exact hpre o2 h1

/-- A list with an answer that stops the loop splits at the first such answer. -/
theorem first_stop_split (wait : Bool) :
    ∀ answers : List FetchOutcome, (∃ o, o ∈ answers ∧ o.stops wait = true) →
      ∃ pre r rest, answers = pre ++ .ok r :: rest ∧ (∀ o, o ∈ pre → o.stops wait = false) ∧
        FetchOutcome.stops wait (.ok r) = true := by
  intro answers
  induction answers with
  | nil =>
    rintro ⟨o, ho, _⟩
    exact absurd ho (List.not_mem_nil _)
  | cons a as ih =>
    rintro ⟨o, ho, hstop⟩
    cases ha : a.stops wait with
    | true =>
      cases a with
      | failed e => simp [FetchOutcome.stops] at ha
      | ok r => exact ⟨[], r, as, rfl, fun o2 ho2 => absurd ho2 (List.not_mem_nil _), ha⟩
    | false =>
      have hin : o ∈ as := by
        rcases List.mem_cons.mp ho with h1 | h1
        · subst h1
          rw [ha] at hstop
          cases hstop
        · exact h1
      obtain ⟨pre, r, rest, hsplit, hpre, hr⟩ := ih ⟨o, hin, hstop⟩
      refine ⟨a :: pre, r, rest, by rw [hsplit]; rfl, ?_, hr⟩
      intro o2 ho2
      rcases List.mem_cons.mp ho2 with h1 | h1
      · subst h1; exact ha
      · exact hpre o2 h1


theorem FetchOutcome.stops_withStatus (wait : Bool) (f : Nat → Nat) (o : FetchOutcome) :
    (o.withStatus f).stops wait = o.stops wait := by
  cases o <;> rfl

theorem pollTrace_runGets (ms : JsNumber) (accountId : String) (runId : Nat) :
    ∀ logs : List (List Event), (∀ seg, seg ∈ logs → ∀ ev, ev ∈ seg → ev.isLog = true) →
      ((pollTrace ms (.run accountId runId) logs).filter Event.isRunGet).length = logs.length := by
  intro logs
  induction logs with
  | nil => intro _; rfl
  | cons seg more ih =>
    intro h
    have hseg : seg.filter Event.isRunGet = [] := by
      apply List.filter_eq_nil_iff.mpr
      intro ev hev
      have hl := h seg (List.mem_cons_self _ _) ev hev
      cases ev <;> simp_all [Event.isLog, Event.isRunGet]
    have hmore := ih (fun s hs => h s (List.mem_cons_of_mem _ hs))
    simp only [pollTrace, List.filter_cons, Event.isRunGet, Bool.false_eq_true, if_false,
      if_true, List.filter_append, hseg, List.nil_append, List.length_cons, hmore]

/-! ## Run poller: the claims -/

/-- C1: with `wait_for_job` true, the poll loop exits as soon as the answers
hold a fetched record whose `is_complete` flag is set. When it exits, the
record it exits with is the first such record: every earlier fetch failed or
returned a record with `is_complete` false. The trace is one block per fetch, a
sleep of `interval * 1000` milliseconds (the product, as a JavaScript number,
of the input coerced to a number and 1000) immediately followed by the GET and
then only log lines. Replacing the numeric status codes by any others does not
move the exit. -/
theorem pollLoop_wait_exits_on_first_complete (P : Platform) (accountId : String) (runId : Nat)
    (answers : List FetchOutcome) (fs : FS)
    (hwait : getBooleanInput P "wait_for_job" = .ok true) :
    ((∃ r, FetchOutcome.ok r ∈ answers ∧ r.is_complete = true) →
      ∃ r rest evs, pollLoop P accountId runId answers fs = .ok (r, rest) fs evs) ∧
    (∀ r rest fs1 evs, pollLoop P accountId runId answers fs = .ok (r, rest) fs1 evs →
      ∃ pre logs, answers = pre ++ .ok r :: rest ∧ r.is_complete = true ∧
        (∀ o, o ∈ pre → (∃ e, o = .failed e) ∨ ∃ r2, o = .ok r2 ∧ r2.is_complete = false) ∧
        logs.length = pre.length + 1 ∧
        (∀ seg, seg ∈ logs → ∀ ev, ev ∈ seg → ev.isLog = true) ∧
        evs = pollTrace (P.times (P.toNumber (P.getInput "interval")) (.finite 1000)) (.run accountId runId) logs ∧
        ∀ f : Nat → Nat, ∃ evs2,
          pollLoop P accountId runId (answers.map (FetchOutcome.withStatus f)) fs =
            .ok ({ r with status := f r.status }, rest.map (FetchOutcome.withStatus f)) fs
              evs2) := by
  constructor
  · rintro ⟨r, hr, hc⟩
    obtain ⟨pre, r1, rest, hsplit, hpre, hr1⟩ := first_stop_split true answers
      ⟨.ok r, hr, by simp [FetchOutcome.stops, hc]⟩
    obtain ⟨logs, _, _, hrun⟩ := pollLoop_of_split P accountId runId true hwait fs r1 rest hr1
      pre hpre
    exact ⟨r1, rest, _, hsplit ▸ hrun⟩
  · intro r rest fs1 evs h
    obtain ⟨pre, hsplit, hpre, hr⟩ := split_of_pollLoop P accountId runId true hwait fs answers
      r rest fs1 evs h
    obtain ⟨logs, hlen, hlog, hrun⟩ := pollLoop_of_split P accountId runId true hwait fs r rest
      hr pre hpre
    rw [hsplit, hrun] at h
    simp only [Res.ok.injEq, true_and] at h
    refine ⟨pre, logs, hsplit, by simpa [FetchOutcome.stops] using hr, ?_, hlen, hlog, h.2.symm,
      ?_⟩
    · intro o ho
      have hs := hpre o ho
      cases o with
      | failed e => exact Or.inl ⟨e, rfl⟩
      | ok r2 => exact Or.inr ⟨r2, rfl, by simpa [FetchOutcome.stops] using hs⟩
    · intro f
      obtain ⟨logs2, _, _, hrun2⟩ := pollLoop_of_split P accountId runId true hwait fs
        { r with status := f r.status } (rest.map (FetchOutcome.withStatus f))
        (by simpa [FetchOutcome.stops] using hr)
        (pre.map (FetchOutcome.withStatus f))
        (by
          intro o ho
          obtain ⟨o2, ho2, rfl⟩ := List.mem_map.mp ho
          rw [FetchOutcome.stops_withStatus]
          exact hpre o2 ho2)
      refine ⟨pollTrace (P.times (P.toNumber (P.getInput "interval")) (.finite 1000)) (.run accountId runId)
        logs2, ?_⟩
      rw [hsplit]
      simpa [FetchOutcome.withStatus] using hrun2

/-- C1, at an example: running, then a failed fetch, then success. -/
theorem pollLoop_wait_exits_on_first_complete_witness :
    getBooleanInput waitingExample "wait_for_job" = .ok true ∧
    ∃ r rest evs,
      pollLoop waitingExample "7" 42 [.ok runningRecord, timeoutFailure, .ok successRecord]
        emptyFS = .ok (r, rest) emptyFS evs :=
  ⟨rfl,
    (pollLoop_wait_exits_on_first_complete waitingExample "7" 42
      [.ok runningRecord, timeoutFailure, .ok successRecord] emptyFS rfl).1
      ⟨successRecord, by decide, rfl⟩⟩

/-- The trace of the example of C1. -/
theorem pollLoop_wait_example_trace :
    pollLoop waitingExample "7" 42 [.ok runningRecord, timeoutFailure, .ok successRecord]
        emptyFS =
      .ok (successRecord, []) emptyFS
        [.sleep (.finite 2000), .httpGet (.run "7" 42), .info "Run: 42 - Running",
          .sleep (.finite 2000), .httpGet (.run "7" 42),
          .consoleError ("Error getting job information from dbt Cloud. " ++
            "AxiosError: timeout of 5000ms exceeded. " ++
            "The dbt Cloud API is taking too long to respond."),
          .sleep (.finite 2000), .httpGet (.run "7" 42), .info "Run: 42 - Success",
          .info "job finished with 'Success'"] := by
  with_unfolding_all rfl

/-- With an interval of half a second each fetch follows a sleep of 500
milliseconds. -/
theorem pollLoop_half_second_trace :
    pollLoop halfSecondExample "7" 42 [.ok runningRecord, .ok successRecord] emptyFS =
      .ok (successRecord, []) emptyFS
        [.sleep (.finite 500), .httpGet (.run "7" 42), .info "Run: 42 - Running",
          .sleep (.finite 500), .httpGet (.run "7" 42), .info "Run: 42 - Success",
          .info "job finished with 'Success'"] := by
  with_unfolding_all rfl

/-- C2, as stated, fails: with `wait_for_job` false and a first fetch that
fails, the loop issues a second status fetch before it exits. -/
theorem pollLoop_no_wait_single_fetch_counterexample :
    getBooleanInput notWaitingExample "wait_for_job" = .ok false ∧
    pollLoop notWaitingExample "7" 42 [timeoutFailure, .ok runningRecord] emptyFS =
      .ok (runningRecord, []) emptyFS
        [.sleep (.finite 2000), .httpGet (.run "7" 42),
          .consoleError ("Error getting job information from dbt Cloud. " ++
            "AxiosError: timeout of 5000ms exceeded. " ++
            "The dbt Cloud API is taking too long to respond."),
          .sleep (.finite 2000), .httpGet (.run "7" 42), .info "Run: 42 - Running",
          .info "Not waiting for job to finish. Relevant run logs will be omitted."] ∧
    ((pollLoop notWaitingExample "7" 42 [timeoutFailure, .ok runningRecord]
        emptyFS).events.filter Event.isRunGet).length = 2 := by
  refine ⟨rfl, by with_unfolding_all rfl, ?_⟩
  decide

/-- C2 (amended): with `wait_for_job` false, the poll loop exits on the first
status fetch that succeeds, whatever the status, `is_complete` and `is_error`
of the fetched record; every earlier fetch failed, and the number of status
fetches is the number of those failed fetches plus one, so exactly one when
the first fetch succeeds. -/
theorem pollLoop_no_wait_exits_on_first_fetched (P : Platform) (accountId : String) (runId : Nat)
    (answers : List FetchOutcome) (fs : FS)
    (hwait : getBooleanInput P "wait_for_job" = .ok false) :
    ((∃ r, FetchOutcome.ok r ∈ answers) →
      ∃ r rest evs, pollLoop P accountId runId answers fs = .ok (r, rest) fs evs) ∧
    (∀ r rest fs1 evs, pollLoop P accountId runId answers fs = .ok (r, rest) fs1 evs →
      ∃ pre logs, answers = pre ++ .ok r :: rest ∧
        (∀ o, o ∈ pre → ∃ e, o = .failed e) ∧
        logs.length = pre.length + 1 ∧
        (∀ seg, seg ∈ logs → ∀ ev, ev ∈ seg → ev.isLog = true) ∧
        evs = pollTrace (P.times (P.toNumber (P.getInput "interval")) (.finite 1000)) (.run accountId runId) logs ∧
        (evs.filter Event.isRunGet).length = pre.length + 1) ∧
    (∀ r rest, answers = .ok r :: rest →
      ∃ evs, pollLoop P accountId runId answers fs = .ok (r, rest) fs evs ∧
        (evs.filter Event.isRunGet).length = 1) := by
  refine ⟨?_, ?_, ?_⟩
  · rintro ⟨r, hr⟩
    obtain ⟨pre, r1, rest, hsplit, hpre, hr1⟩ := first_stop_split false answers
      ⟨.ok r, hr, rfl⟩
    obtain ⟨logs, _, _, hrun⟩ := pollLoop_of_split P accountId runId false hwait fs r1 rest hr1
      pre hpre
    exact ⟨r1, rest, _, hsplit ▸ hrun⟩
  · intro r rest fs1 evs h
    obtain ⟨pre, hsplit, hpre, hr⟩ := split_of_pollLoop P accountId runId false hwait fs answers
      r rest fs1 evs h
    obtain ⟨logs, hlen, hlog, hrun⟩ := pollLoop_of_split P accountId runId false hwait fs r rest
      hr pre hpre
    rw [hsplit, hrun] at h
    simp only [Res.ok.injEq, true_and] at h
    refine ⟨pre, logs, hsplit, ?_, hlen, hlog, h.2.symm, ?_⟩
    · intro o ho
      have hs := hpre o ho
      cases o with
      | failed e => exact ⟨e, rfl⟩
      | ok r2 => simp [FetchOutcome.stops] at hs
    · rw [← h.2, pollTrace_runGets _ _ _ logs hlog, hlen]
  · intro r rest hans
    obtain ⟨logs, hlen, hlog, hrun⟩ := pollLoop_of_split P accountId runId false hwait fs r rest
      rfl [] (fun o ho => absurd ho (List.not_mem_nil _))
    refine ⟨_, by rw [hans]; exact hrun, ?_⟩
    rw [pollTrace_runGets _ _ _ logs hlog, hlen]
    rfl

/-- C2 (amended), at an example: one failed fetch, then a running record. -/
theorem pollLoop_no_wait_exits_on_first_fetched_witness :
    getBooleanInput notWaitingExample "wait_for_job" = .ok false ∧
    ∃ r rest evs,
      pollLoop notWaitingExample "7" 42 [timeoutFailure, .ok runningRecord] emptyFS =
        .ok (r, rest) emptyFS evs :=
  ⟨rfl,
    (pollLoop_no_wait_exits_on_first_fetched notWaitingExample "7" 42
      [timeoutFailure, .ok runningRecord] emptyFS rfl).1 ⟨runningRecord, by decide⟩⟩


/-! ## Artifact fetcher: lemmas -/

theorem ensureDir_run (saveDir : String) (fs : FS) :
    ∃ fs1 evs, ensureDir saveDir fs = .ok () fs1 evs ∧ fs1.files = fs.files ∧
      evs.filter Event.isArtifactStep = [] ∧
      (∀ ev, ev ∈ evs → ev = .mkdir saveDir) := by
  unfold ensureDir
  by_cases h : fs.dirs.contains saveDir = true
  · exact ⟨fs, [], by simp only [h, if_true], rfl, rfl, fun ev hev => absurd hev (List.not_mem_nil _)⟩
  · refine ⟨{ fs with dirs := fs.dirs ++ [saveDir] }, [.mkdir saveDir], ?_, rfl, rfl, ?_⟩
    · simp only [h, Bool.false_eq_true, if_false]
    · intro ev hev
      exact List.mem_singleton.mp hev

/-- One iteration of the loop of `getJobArtifacts`, by the answer of the platform. -/
theorem fetchJobArtifact_run (P : Platform) (R : Remote) (accountId jobId saveDir artifact : String)
    (fs : FS) :
    fetchJobArtifact P R accountId jobId saveDir artifact fs =
      match R.getArtifact (.jobArtifact accountId jobId artifact) with
      | .ok data =>
        .ok () (fs.withFile (saveDir ++ "/" ++ artifact) (P.jsonStringify data))
          [.info ("Fetching " ++ artifact ++ " for the base environment"),
            .httpGet (.jobArtifact accountId jobId artifact),
            .info ("Saving " ++ artifact ++ " in " ++ saveDir),
            .writeFile (saveDir ++ "/" ++ artifact) (P.jsonStringify data)]
      | .error e =>
        if artifact == "catalog.json" && e.responseStatus == some 404 then
          .ok () fs
            [.info ("Fetching " ++ artifact ++ " for the base environment"),
              .httpGet (.jobArtifact accountId jobId artifact),
              .notice "catalog.json not found in the base job. Skipping download."]
        else
          .thrown e fs
            [.info ("Fetching " ++ artifact ++ " for the base environment"),
              .httpGet (.jobArtifact accountId jobId artifact)] := by
  unfold fetchJobArtifact tryCatch
  simp only [bind_run, emit_run]
  cases R.getArtifact (.jobArtifact accountId jobId artifact) with
  | ok data => rfl
  | error e =>
    simp only [liftExcept_error_run, Res.prepend, List.append_nil, List.singleton_append]
    by_cases hc : (artifact == "catalog.json" && e.responseStatus == some 404) = true
    · simp only [hc, if_true, emit_run, Res.prepend]
      rfl
    · simp only [hc, Bool.false_eq_true, if_false, raise_run, Res.prepend, List.append_nil]

/-- One iteration of the loop of `getRunArtifacts`, by the answer of the platform. -/
theorem fetchRunArtifact_run (P : Platform) (R : Remote) (accountId : String) (runId : Nat)
    (saveDir artifact : String) (fs : FS) :
    fetchRunArtifact P R accountId runId saveDir artifact fs =
      match R.getArtifact (.runArtifact accountId runId artifact) with
      | .ok data =>
        .ok () (fs.withFile (saveDir ++ "/" ++ artifact) (P.jsonStringify data))
          [.info ("Fetching " ++ artifact ++ " for the current environment"),
            .httpGet (.runArtifact accountId runId artifact),
            .info ("Saving " ++ artifact ++ " in " ++ saveDir),
            .writeFile (saveDir ++ "/" ++ artifact) (P.jsonStringify data)]
      | .error e =>
        if artifact == "catalog.json" && e.responseStatus == some 404 then
          .ok () fs
            [.info ("Fetching " ++ artifact ++ " for the current environment"),
              .httpGet (.runArtifact accountId runId artifact),
              .notice "catalog.json not found in the current run. Skipping download."]
        else
          .thrown e fs
            [.info ("Fetching " ++ artifact ++ " for the current environment"),
              .httpGet (.runArtifact accountId runId artifact)] := by
  unfold fetchRunArtifact tryCatch
  simp only [bind_run, emit_run]
  cases R.getArtifact (.runArtifact accountId runId artifact) with
  | ok data => rfl
  | error e =>
    simp only [liftExcept_error_run, Res.prepend, List.append_nil, List.singleton_append]
    by_cases hc : (artifact == "catalog.json" && e.responseStatus == some 404) = true
    · simp only [hc, if_true, emit_run, Res.prepend]
      rfl
    · simp only [hc, Bool.false_eq_true, if_false, raise_run, Res.prepend, List.append_nil]


theorem FS.withFile_files_of_eq (fs fs0 : FS) (path content : String)
    (h : fs0.files = fs.files) :
    (fs0.withFile path content).files = (fs.withFile path content).files := by
  simp only [FS.withFile, h]

/-- The whole of `getJobArtifacts`, by the answers of the platform. -/
theorem getJobArtifacts_run (P : Platform) (R : Remote) (accountId jobId : String) (fs : FS) :
    ∃ fs0 evs0, fs0.files = fs.files ∧ evs0.filter Event.isArtifactStep = [] ∧
      (∀ ev, ev ∈ evs0 → ev = .mkdir "./target-base") ∧
      getJobArtifacts P R accountId jobId fs =
        Res.prepend evs0
          (match R.getArtifact (.jobArtifact accountId jobId "manifest.json") with
            | .error e =>
              .thrown e fs0
                [.info "Fetching manifest.json for the base environment",
                  .httpGet (.jobArtifact accountId jobId "manifest.json")]
            | .ok m =>
              Res.prepend
                [.info "Fetching manifest.json for the base environment",
                  .httpGet (.jobArtifact accountId jobId "manifest.json"),
                  .info "Saving manifest.json in ./target-base",
                  .writeFile "./target-base/manifest.json" (P.jsonStringify m)]
                (match R.getArtifact (.jobArtifact accountId jobId "catalog.json") with
                  | .ok c =>
                    .ok ()
                      ((fs0.withFile "./target-base/manifest.json" (P.jsonStringify m)).withFile
                        "./target-base/catalog.json" (P.jsonStringify c))
                      [.info "Fetching catalog.json for the base environment",
                        .httpGet (.jobArtifact accountId jobId "catalog.json"),
                        .info "Saving catalog.json in ./target-base",
                        .writeFile "./target-base/catalog.json" (P.jsonStringify c)]
                  | .error e =>
                    if e.responseStatus == some 404 then
                      .ok () (fs0.withFile "./target-base/manifest.json" (P.jsonStringify m))
                        [.info "Fetching catalog.json for the base environment",
                          .httpGet (.jobArtifact accountId jobId "catalog.json"),
                          .notice "catalog.json not found in the base job. Skipping download."]
                    else
                      .thrown e (fs0.withFile "./target-base/manifest.json" (P.jsonStringify m))
                        [.info "Fetching catalog.json for the base environment",
                          .httpGet (.jobArtifact accountId jobId "catalog.json")])) := by
  obtain ⟨fs0, evs0, hens, hfiles, hsteps, hmk⟩ := ensureDir_run "./target-base" fs
  refine ⟨fs0, evs0, hfiles, hsteps, hmk, ?_⟩
  have hm : ("manifest.json" == "catalog.json") = false := by decide
  have hc : ("catalog.json" == "catalog.json") = true := by decide
  unfold getJobArtifacts
  simp only [bind_run, hens, ARTIFACTS, jobArtifactsLoop, fetchJobArtifact_run]
  congr 1
  cases R.getArtifact (.jobArtifact accountId jobId "manifest.json") with
  | error e =>
    simp only [hm, Bool.false_and, Bool.false_eq_true, if_false]
    rfl
  | ok m =>
    simp only
    congr 1
    cases R.getArtifact (.jobArtifact accountId jobId "catalog.json") with
    | ok c => rfl
    | error e =>
      simp only [hc, Bool.true_and]
      by_cases h4 : (e.responseStatus == some 404) = true
      · simp only [h4, if_true, pure_run, Res.prepend, List.append_nil]
        rfl
      · simp only [h4, Bool.false_eq_true, if_false]
        rfl

/-- The whole of `getRunArtifacts`, by the answers of the platform. -/
theorem getRunArtifacts_run (P : Platform) (R : Remote) (accountId : String) (runId : Nat)
    (fs : FS) :
    ∃ fs0 evs0, fs0.files = fs.files ∧ evs0.filter Event.isArtifactStep = [] ∧
      (∀ ev, ev ∈ evs0 → ev = .mkdir "./target") ∧
      getRunArtifacts P R accountId runId fs =
        Res.prepend evs0
          (match R.getArtifact (.runArtifact accountId runId "manifest.json") with
            | .error e =>
              .thrown e fs0
                [.info "Fetching manifest.json for the current environment",
                  .httpGet (.runArtifact accountId runId "manifest.json")]
            | .ok m =>
              Res.prepend
                [.info "Fetching manifest.json for the current environment",
                  .httpGet (.runArtifact accountId runId "manifest.json"),
                  .info "Saving manifest.json in ./target",
                  .writeFile "./target/manifest.json" (P.jsonStringify m)]
                (match R.getArtifact (.runArtifact accountId runId "catalog.json") with
                  | .ok c =>
                    .ok ()
                      ((fs0.withFile "./target/manifest.json" (P.jsonStringify m)).withFile
                        "./target/catalog.json" (P.jsonStringify c))
                      [.info "Fetching catalog.json for the current environment",
                        .httpGet (.runArtifact accountId runId "catalog.json"),
                        .info "Saving catalog.json in ./target",
                        .writeFile "./target/catalog.json" (P.jsonStringify c)]
                  | .error e =>
                    if e.responseStatus == some 404 then
                      .ok () (fs0.withFile "./target/manifest.json" (P.jsonStringify m))
                        [.info "Fetching catalog.json for the current environment",
                          .httpGet (.runArtifact accountId runId "catalog.json"),
                          .notice "catalog.json not found in the current run. Skipping download."]
                    else
                      .thrown e (fs0.withFile "./target/manifest.json" (P.jsonStringify m))
                        [.info "Fetching catalog.json for the current environment",
                          .httpGet (.runArtifact accountId runId "catalog.json")])) := by
  obtain ⟨fs0, evs0, hens, hfiles, hsteps, hmk⟩ := ensureDir_run "./target" fs
  refine ⟨fs0, evs0, hfiles, hsteps, hmk, ?_⟩
  have hm : ("manifest.json" == "catalog.json") = false := by decide
  have hc : ("catalog.json" == "catalog.json") = true := by decide
  unfold getRunArtifacts
  simp only [bind_run, hens, ARTIFACTS, runArtifactsLoop, fetchRunArtifact_run]
  congr 1
  cases R.getArtifact (.runArtifact accountId runId "manifest.json") with
  | error e =>
    simp only [hm, Bool.false_and, Bool.false_eq_true, if_false]
    rfl
  | ok m =>
    simp only
    congr 1
    cases R.getArtifact (.runArtifact accountId runId "catalog.json") with
    | ok c => rfl
    | error e =>
      simp only [hc, Bool.true_and]
      by_cases h4 : (e.responseStatus == some 404) = true
      · simp only [h4, if_true, pure_run, Res.prepend, List.append_nil]
        rfl
      · simp only [h4, Bool.false_eq_true, if_false]
        rfl


/-! ## Artifact fetcher: the claim -/

/-- C5: for `getJobArtifacts` and `getRunArtifacts` alike, over `manifest.json`
then `catalog.json`: a failed fetch of `manifest.json` (status 404 included)
is rethrown and nothing else is fetched or written; a fetch of `catalog.json`
that fails with status 404 gives a notice, no file for `catalog.json` and a
normal return; any other failed fetch of `catalog.json` is rethrown; and each
fetch that succeeds writes the JSON serialisation of the response data to the
file named after the artifact in the save directory. The steps listed are the
GETs, file writes and notices of the trace, in order. -/
theorem artifact_fetch_policy (P : Platform) (R : Remote) (accountId jobId : String)
    (runId : Nat) (fs : FS) :
    ARTIFACTS = ["manifest.json", "catalog.json"] ∧
    ((∀ e, R.getArtifact (.jobArtifact accountId jobId "manifest.json") = .error e →
        ∃ fs1 evs, getJobArtifacts P R accountId jobId fs = .thrown e fs1 evs ∧
          evs.filter Event.isArtifactStep = [.httpGet (.jobArtifact accountId jobId "manifest.json")] ∧
          fs1.files = fs.files) ∧
      (∀ m c, R.getArtifact (.jobArtifact accountId jobId "manifest.json") = .ok m →
        R.getArtifact (.jobArtifact accountId jobId "catalog.json") = .ok c →
        ∃ fs1 evs, getJobArtifacts P R accountId jobId fs = .ok () fs1 evs ∧
          evs.filter Event.isArtifactStep =
            [.httpGet (.jobArtifact accountId jobId "manifest.json"),
              .writeFile "./target-base/manifest.json" (P.jsonStringify m),
              .httpGet (.jobArtifact accountId jobId "catalog.json"),
              .writeFile "./target-base/catalog.json" (P.jsonStringify c)] ∧
          fs1.files = ((fs.withFile "./target-base/manifest.json" (P.jsonStringify m)).withFile
            "./target-base/catalog.json" (P.jsonStringify c)).files) ∧
      (∀ m e, R.getArtifact (.jobArtifact accountId jobId "manifest.json") = .ok m →
        R.getArtifact (.jobArtifact accountId jobId "catalog.json") = .error e →
        e.responseStatus = some 404 →
        ∃ fs1 evs, getJobArtifacts P R accountId jobId fs = .ok () fs1 evs ∧
          evs.filter Event.isArtifactStep =
            [.httpGet (.jobArtifact accountId jobId "manifest.json"),
              .writeFile "./target-base/manifest.json" (P.jsonStringify m),
              .httpGet (.jobArtifact accountId jobId "catalog.json"),
              .notice "catalog.json not found in the base job. Skipping download."] ∧
          fs1.files = (fs.withFile "./target-base/manifest.json" (P.jsonStringify m)).files) ∧
      (∀ m e, R.getArtifact (.jobArtifact accountId jobId "manifest.json") = .ok m →
        R.getArtifact (.jobArtifact accountId jobId "catalog.json") = .error e →
        e.responseStatus ≠ some 404 →
        ∃ fs1 evs, getJobArtifacts P R accountId jobId fs = .thrown e fs1 evs ∧
          evs.filter Event.isArtifactStep =
            [.httpGet (.jobArtifact accountId jobId "manifest.json"),
              .writeFile "./target-base/manifest.json" (P.jsonStringify m),
              .httpGet (.jobArtifact accountId jobId "catalog.json")] ∧
          fs1.files = (fs.withFile "./target-base/manifest.json" (P.jsonStringify m)).files)) ∧
    ((∀ e, R.getArtifact (.runArtifact accountId runId "manifest.json") = .error e →
        ∃ fs1 evs, getRunArtifacts P R accountId runId fs = .thrown e fs1 evs ∧
          evs.filter Event.isArtifactStep = [.httpGet (.runArtifact accountId runId "manifest.json")] ∧
          fs1.files = fs.files) ∧
      (∀ m c, R.getArtifact (.runArtifact accountId runId "manifest.json") = .ok m →
        R.getArtifact (.runArtifact accountId runId "catalog.json") = .ok c →
        ∃ fs1 evs, getRunArtifacts P R accountId runId fs = .ok () fs1 evs ∧
          evs.filter Event.isArtifactStep =
            [.httpGet (.runArtifact accountId runId "manifest.json"),
              .writeFile "./target/manifest.json" (P.jsonStringify m),
              .httpGet (.runArtifact accountId runId "catalog.json"),
              .writeFile "./target/catalog.json" (P.jsonStringify c)] ∧
          fs1.files = ((fs.withFile "./target/manifest.json" (P.jsonStringify m)).withFile
            "./target/catalog.json" (P.jsonStringify c)).files) ∧
      (∀ m e, R.getArtifact (.runArtifact accountId runId "manifest.json") = .ok m →
        R.getArtifact (.runArtifact accountId runId "catalog.json") = .error e →
        e.responseStatus = some 404 →
        ∃ fs1 evs, getRunArtifacts P R accountId runId fs = .ok () fs1 evs ∧
          evs.filter Event.isArtifactStep =
            [.httpGet (.runArtifact accountId runId "manifest.json"),
              .writeFile "./target/manifest.json" (P.jsonStringify m),
              .httpGet (.runArtifact accountId runId "catalog.json"),
              .notice "catalog.json not found in the current run. Skipping download."] ∧
          fs1.files = (fs.withFile "./target/manifest.json" (P.jsonStringify m)).files) ∧
      (∀ m e, R.getArtifact (.runArtifact accountId runId "manifest.json") = .ok m →
        R.getArtifact (.runArtifact accountId runId "catalog.json") = .error e →
        e.responseStatus ≠ some 404 →
        ∃ fs1 evs, getRunArtifacts P R accountId runId fs = .thrown e fs1 evs ∧
          evs.filter Event.isArtifactStep =
            [.httpGet (.runArtifact accountId runId "manifest.json"),
              .writeFile "./target/manifest.json" (P.jsonStringify m),
              .httpGet (.runArtifact accountId runId "catalog.json")] ∧
          fs1.files = (fs.withFile "./target/manifest.json" (P.jsonStringify m)).files)) := by
  refine ⟨rfl, ?_, ?_⟩
  · obtain ⟨fs0, evs0, hfiles, hsteps, _, hrun⟩ := getJobArtifacts_run P R accountId jobId fs
    refine ⟨?_, ?_, ?_, ?_⟩
    · intro e hm
      rw [hm] at hrun
      exact ⟨_, _, hrun, by simp [List.filter_append, hsteps, Event.isArtifactStep], hfiles⟩
    · intro m c hm hc
      rw [hm, hc] at hrun
      exact ⟨_, _, hrun, by simp [List.filter_append, hsteps, Event.isArtifactStep],
        FS.withFile_files_of_eq _ _ _ _ (FS.withFile_files_of_eq _ _ _ _ hfiles)⟩
    · intro m e hm hc h404
      have h4 : (e.responseStatus == some 404) = true := by simp [h404]
      rw [hm, hc] at hrun
      simp only [h4, if_true] at hrun
      exact ⟨_, _, hrun, by simp [List.filter_append, hsteps, Event.isArtifactStep],
        FS.withFile_files_of_eq _ _ _ _ hfiles⟩
    · intro m e hm hc h404
      have h4 : (e.responseStatus == some 404) = false := by simpa using h404
      rw [hm, hc] at hrun
      simp only [h4, Bool.false_eq_true, if_false] at hrun
      exact ⟨_, _, hrun, by simp [List.filter_append, hsteps, Event.isArtifactStep],
        FS.withFile_files_of_eq _ _ _ _ hfiles⟩
  · obtain ⟨fs0, evs0, hfiles, hsteps, _, hrun⟩ := getRunArtifacts_run P R accountId runId fs
    refine ⟨?_, ?_, ?_, ?_⟩
    · intro e hm
      rw [hm] at hrun
      exact ⟨_, _, hrun, by simp [List.filter_append, hsteps, Event.isArtifactStep], hfiles⟩
    · intro m c hm hc
      rw [hm, hc] at hrun
      exact ⟨_, _, hrun, by simp [List.filter_append, hsteps, Event.isArtifactStep],
        FS.withFile_files_of_eq _ _ _ _ (FS.withFile_files_of_eq _ _ _ _ hfiles)⟩
    · intro m e hm hc h404
      have h4 : (e.responseStatus == some 404) = true := by simp [h404]
      rw [hm, hc] at hrun
      simp only [h4, if_true] at hrun
      exact ⟨_, _, hrun, by simp [List.filter_append, hsteps, Event.isArtifactStep],
        FS.withFile_files_of_eq _ _ _ _ hfiles⟩
    · intro m e hm hc h404
      have h4 : (e.responseStatus == some 404) = false := by simpa using h404
      rw [hm, hc] at hrun
      simp only [h4, Bool.false_eq_true, if_false] at hrun
      exact ⟨_, _, hrun, by simp [List.filter_append, hsteps, Event.isArtifactStep],
        FS.withFile_files_of_eq _ _ _ _ hfiles⟩

/-- C5, at an example: the base job has no catalog (404), the manifest is saved. -/
theorem artifact_fetch_policy_witness :
    ∃ fs1 evs, getJobArtifacts waitingExample noBaseCatalogRemote "7" "8" emptyFS =
        .ok () fs1 evs ∧
      evs.filter Event.isArtifactStep =
        [.httpGet (.jobArtifact "7" "8" "manifest.json"),
          .writeFile "./target-base/manifest.json" "\"x\"",
          .httpGet (.jobArtifact "7" "8" "catalog.json"),
          .notice "catalog.json not found in the base job. Skipping download."] ∧
      fs1.files = [("./target-base/manifest.json", "\"x\"")] :=
  (artifact_fetch_policy waitingExample noBaseCatalogRemote "7" "8" 42 emptyFS).2.1.2.2.1
    (.str "x") (httpError 404) rfl rfl rfl


/-! ## Log reporter and orchestrator: lemmas -/

theorem printSteps_run (steps : List RunStep) (fs : FS) :
    printSteps steps fs = .ok () fs (stepLines steps) := by
  induction steps with
  | nil => rfl
  | cons step steps ih =>
    simp only [printSteps, bind_run, emit_run, ih, Res.prepend, stepLines, List.singleton_append]

/-- The log report when the re-fetch returns a record. -/
theorem reportLogs_ok_run (accountId : String) (runId : Nat) (r2 : RunRecord)
    (more : List FetchOutcome) (fs : FS) :
    reportLogs accountId runId (.ok r2 :: more) fs =
      .ok r2 fs
        ([.info "Loading logs...", .sleep (.finite 5000), .httpGet (.run accountId runId)] ++
          stepLines r2.run_steps) := by
  simp only [reportLogs, bind_run, emit_run, getJobRun_ok_run, printSteps_run, pure_run,
    Res.prepend, List.singleton_append, List.append_nil, List.cons_append, List.nil_append]

/-- The log report when the re-fetch fails: reading `res.data` throws. -/
theorem reportLogs_failed_run (accountId : String) (runId : Nat) (e : JsError)
    (more : List FetchOutcome) (fs : FS) :
    ∃ msg, reportLogs accountId runId (.failed e :: more) fs =
      .thrown undefinedDataError fs
        [.info "Loading logs...", .sleep (.finite 5000), .httpGet (.run accountId runId),
          .consoleError msg] := by
  obtain ⟨msg, hmsg⟩ := getJobRun_failed_run accountId runId e fs
  refine ⟨msg, ?_⟩
  simp only [reportLogs, bind_run, emit_run, hmsg, raise_run, Res.prepend,
    List.singleton_append, List.append_nil, List.cons_append, List.nil_append]
  rfl

/-- What follows the poll loop when the record it ended on is not in error. -/
theorem afterPoll_no_error (P : Platform) (R : Remote) (accountId baseJobId : String)
    (runId : Nat) (f : Bool) (res : RunRecord) (rest : List FetchOutcome) (fs : FS)
    (h : res.is_error = false) :
    afterPoll P R accountId baseJobId runId f res rest fs =
      downloadAndReturn P R accountId baseJobId runId res fs := by
  simp only [afterPoll, h, Bool.false_and, Bool.false_eq_true, if_false, bind_run, pure_run,
    Res.prepend_nil]

/-- What follows the poll loop when the record it ended on is in error and the
re-fetch returns a record. -/
theorem afterPoll_error_ok (P : Platform) (R : Remote) (accountId baseJobId : String)
    (runId : Nat) (f : Bool) (res r2 : RunRecord) (more : List FetchOutcome) (fs : FS)
    (h : res.is_error = true) :
    afterPoll P R accountId baseJobId runId f res (.ok r2 :: more) fs =
      Res.prepend
        ((if f then [.setFailed none] else []) ++
          ([.info "Loading logs...", .sleep (.finite 5000), .httpGet (.run accountId runId)] ++
            stepLines r2.run_steps))
        (downloadAndReturn P R accountId baseJobId runId r2 fs) := by
  cases f with
  | true =>
    simp only [afterPoll, h, Bool.and_self, if_true, bind_run, emit_run, reportLogs_ok_run,
      Res.prepend]
    cases downloadAndReturn P R accountId baseJobId runId r2 fs <;> simp [Res.prepend]
  | false =>
    simp only [afterPoll, h, Bool.and_false, Bool.false_eq_true, if_false, if_true, bind_run,
      pure_run, reportLogs_ok_run, Res.prepend, List.nil_append]
    cases downloadAndReturn P R accountId baseJobId runId r2 fs <;> simp [Res.prepend]

/-- What follows the poll loop when the record it ended on is in error and the
re-fetch fails. -/
theorem afterPoll_error_failed (P : Platform) (R : Remote) (accountId baseJobId : String)
    (runId : Nat) (f : Bool) (res : RunRecord) (e : JsError) (more : List FetchOutcome) (fs : FS)
    (h : res.is_error = true) :
    ∃ msg, afterPoll P R accountId baseJobId runId f res (.failed e :: more) fs =
      .thrown undefinedDataError fs
        ((if f then [.setFailed none] else []) ++
          [.info "Loading logs...", .sleep (.finite 5000), .httpGet (.run accountId runId),
            .consoleError msg]) := by
  obtain ⟨msg, hmsg⟩ := reportLogs_failed_run accountId runId e more fs
  refine ⟨msg, ?_⟩
  cases f with
  | true =>
    simp only [afterPoll, h, Bool.and_self, if_true, bind_run, emit_run, hmsg, Res.prepend]
  | false =>
    simp only [afterPoll, h, Bool.and_false, Bool.false_eq_true, if_false, if_true, bind_run,
      pure_run, hmsg, Res.prepend, List.nil_append]

/-- What follows the poll loop when the record it ended on is in error and the
platform gives no further answer. -/
theorem afterPoll_error_stuck (P : Platform) (R : Remote) (accountId baseJobId : String)
    (runId : Nat) (f : Bool) (res : RunRecord) (fs : FS) (h : res.is_error = true) :
    afterPoll P R accountId baseJobId runId f res [] fs = .stuck := by
  cases f with
  | true =>
    simp only [afterPoll, h, Bool.and_self, if_true, bind_run, emit_run, reportLogs, Res.prepend]
  | false =>
    simp only [afterPoll, h, Bool.and_false, Bool.false_eq_true, if_false, if_true, bind_run,
      pure_run, reportLogs, Res.prepend]


theorem emitsOnly_mono {α : Type} (S T : Event → Prop) (m : Act α) (h : ∀ ev, S ev → T ev)
    (hm : Act.emitsOnly S m) : Act.emitsOnly T m :=
  fun fs ev hev => h ev (hm fs ev hev)

theorem getJobRun_poll (accountId : String) (runId : Nat) (answer : FetchOutcome) :
    Act.emitsOnly (fun ev => ev.isPoll = true) (getJobRun accountId runId answer) := by
  unfold getJobRun
  refine emitsOnly_bind _ _ _ (emitsOnly_emit _ _ rfl) (fun _ => ?_)
  cases answer with
  | ok r => exact emitsOnly_pure _ _
  | failed e =>
    exact emitsOnly_bind _ _ _ (emitsOnly_emit _ _ rfl) (fun _ => emitsOnly_pure _ _)

theorem emitsOnly_stuck {α : Type} (S : Event → Prop) :
    Act.emitsOnly S (fun _ => (Res.stuck : Res α)) := by
  intro fs ev hev
  exact absurd hev (List.not_mem_nil _)

theorem pollLoop_poll (P : Platform) (accountId : String) (runId : Nat) :
    ∀ answers, Act.emitsOnly (fun ev => ev.isPoll = true) (pollLoop P accountId runId answers) := by
  intro answers
  induction answers with
  | nil =>
    unfold pollLoop
    exact emitsOnly_stuck _
  | cons a rest ih =>
    unfold pollLoop
    refine emitsOnly_bind _ _ _ (emitsOnly_emit _ _ rfl) (fun _ => ?_)
    refine emitsOnly_bind _ _ _ (getJobRun_poll _ _ _) (fun res => ?_)
    cases res with
    | none => exact ih
    | some r =>
      refine emitsOnly_bind _ _ _ (emitsOnly_emit _ _ rfl) (fun _ => ?_)
      refine emitsOnly_bind _ _ _ (emitsOnly_liftExcept _ _) (fun wait => ?_)
      cases wait with
      | true =>
        simp only [if_true]
        cases r.is_complete with
        | true =>
          simp only [if_true]
          exact emitsOnly_bind _ _ _ (emitsOnly_emit _ _ rfl) (fun _ => emitsOnly_pure _ _)
        | false =>
          simp only [Bool.false_eq_true, if_false]
          exact ih
      | false =>
        simp only [Bool.false_eq_true, if_false]
        exact emitsOnly_bind _ _ _ (emitsOnly_emit _ _ rfl) (fun _ => emitsOnly_pure _ _)

theorem ensureDir_download (saveDir : String) :
    Act.emitsOnly (fun ev => ev.isDownload = true) (ensureDir saveDir) := by
  intro fs ev hev
  obtain ⟨fs1, evs, hrun, _, _, hmk⟩ := ensureDir_run saveDir fs
  rw [hrun] at hev
  rw [hmk ev hev]
  rfl

theorem fetchJobArtifact_download (P : Platform) (R : Remote)
    (accountId jobId saveDir artifact : String) :
    Act.emitsOnly (fun ev => ev.isDownload = true)
      (fetchJobArtifact P R accountId jobId saveDir artifact) := by
  intro fs ev hev
  rw [fetchJobArtifact_run] at hev
  revert hev
  cases R.getArtifact (.jobArtifact accountId jobId artifact) with
  | ok data =>
    intro hev
    simp only [Res.events, List.mem_cons, List.mem_singleton, List.not_mem_nil, or_false] at hev
    rcases hev with rfl | rfl | rfl | rfl <;> rfl
  | error e =>
    intro hev
    simp only at hev
    split at hev
    · simp only [Res.events, List.mem_cons, List.mem_singleton, List.not_mem_nil, or_false] at hev
      rcases hev with rfl | rfl | rfl <;> rfl
    · simp only [Res.events, List.mem_cons, List.mem_singleton, List.not_mem_nil, or_false] at hev
      rcases hev with rfl | rfl <;> rfl

theorem fetchRunArtifact_download (P : Platform) (R : Remote) (accountId : String) (runId : Nat)
    (saveDir artifact : String) :
    Act.emitsOnly (fun ev => ev.isDownload = true)
      (fetchRunArtifact P R accountId runId saveDir artifact) := by
  intro fs ev hev
  rw [fetchRunArtifact_run] at hev
  revert hev
  cases R.getArtifact (.runArtifact accountId runId artifact) with
  | ok data =>
    intro hev
    simp only [Res.events, List.mem_cons, List.mem_singleton, List.not_mem_nil, or_false] at hev
    rcases hev with rfl | rfl | rfl | rfl <;> rfl
  | error e =>
    intro hev
    simp only at hev
    split at hev
    · simp only [Res.events, List.mem_cons, List.mem_singleton, List.not_mem_nil, or_false] at hev
      rcases hev with rfl | rfl | rfl <;> rfl
    · simp only [Res.events, List.mem_cons, List.mem_singleton, List.not_mem_nil, or_false] at hev
      rcases hev with rfl | rfl <;> rfl

theorem downloadAndReturn_download (P : Platform) (R : Remote) (accountId baseJobId : String)
    (runId : Nat) (res : RunRecord) :
    Act.emitsOnly (fun ev => ev.isDownload = true)
      (downloadAndReturn P R accountId baseJobId runId res) := by
  have hjob : ∀ arts, Act.emitsOnly (fun ev => ev.isDownload = true)
      (jobArtifactsLoop P R accountId baseJobId "./target-base" arts) := by
    intro arts
    induction arts with
    | nil => exact emitsOnly_pure _ _
    | cons a more ih =>
      unfold jobArtifactsLoop
      exact emitsOnly_bind _ _ _ (fetchJobArtifact_download _ _ _ _ _ _) (fun _ => ih)
  have hrun : ∀ arts, Act.emitsOnly (fun ev => ev.isDownload = true)
      (runArtifactsLoop P R accountId runId "./target" arts) := by
    intro arts
    induction arts with
    | nil => exact emitsOnly_pure _ _
    | cons a more ih =>
      unfold runArtifactsLoop
      exact emitsOnly_bind _ _ _ (fetchRunArtifact_download _ _ _ _ _ _) (fun _ => ih)
  unfold downloadAndReturn getJobArtifacts getRunArtifacts
  refine emitsOnly_bind _ _ _ ?_ (fun _ => emitsOnly_bind _ _ _ ?_ (fun _ => emitsOnly_pure _ _))
  · exact emitsOnly_bind _ _ _ (ensureDir_download _) (fun _ => hjob _)
  · exact emitsOnly_bind _ _ _ (ensureDir_download _) (fun _ => hrun _)

theorem downloadAndReturn_ok (P : Platform) (R : Remote) (accountId baseJobId : String)
    (runId : Nat) (res : RunRecord) (fs fs1 : FS) (out : Outputs) (evs : List Event)
    (h : downloadAndReturn P R accountId baseJobId runId res fs = .ok out fs1 evs) :
    out = { git_sha := res.git_sha, run_id := runId } := by
  unfold downloadAndReturn at h
  simp only [bind_run] at h
  cases h1 : getJobArtifacts P R accountId baseJobId fs with
  | stuck => simp [h1] at h
  | thrown e fs2 evs2 => simp [h1] at h
  | ok u fs2 evs2 =>
    simp only [h1] at h
    cases h2 : getRunArtifacts P R accountId runId fs2 with
    | stuck => simp [h2, Res.prepend] at h
    | thrown e fs3 evs3 => simp [h2, Res.prepend] at h
    | ok u2 fs3 evs3 =>
      simp only [h2, pure_run, Res.prepend, Res.ok.injEq] at h
      exact h.1.symm


/-- A conversion that returns has emitted no mark. -/
theorem convertInput_ok_events (P : Platform) (key : String) (fs fs1 : FS) (v : Value)
    (evs : List Event) (h : convertInput P key fs = .ok v fs1 evs) :
    ∀ ev, ev ∈ evs → ev.isMark = false := by
  unfold convertInput at h
  by_cases hin : P.getInput key = ""
  · simp [hin, pure_run] at h
    obtain ⟨_, _, rfl⟩ := h
    intro ev hev
    exact absurd hev (List.not_mem_nil _)
  · have hne : (P.getInput key != "") = true := by simpa using hin
    simp only [hne, Bool.true_and] at h
    by_cases hb : BOOL_OPTIONAL_KEYS.contains key = true
    · simp only [hb, if_true] at h
      cases hg : getBooleanInput P key with
      | error e => simp [hg, bind_run, liftExcept_error_run] at h
      | ok b =>
        simp only [hg, bind_run, liftExcept_ok_run, pure_run, Res.prepend, List.append_nil,
          Res.ok.injEq] at h
        obtain ⟨_, _, rfl⟩ := h
        intro ev hev
        exact absurd hev (List.not_mem_nil _)
    · simp only [hb] at h
      simp only [Bool.false_eq_true, if_false] at h
      by_cases hi : INTEGER_OPTIONAL_KEYS.contains key = true
      · simp only [hi, if_true, pure_run] at h
        simp only [Res.ok.injEq] at h
        obtain ⟨_, _, rfl⟩ := h
        intro ev hev
        exact absurd hev (List.not_mem_nil _)
      · simp only [hi] at h
        simp only [Bool.false_eq_true, if_false] at h
        by_cases hy : YAML_PARSE_OPTIONAL_KEYS.contains key = true
        · simp only [hy, if_true] at h
          simp only [bind_run, emit_run, tryCatch] at h
          cases hp : P.yamlParse (P.getInput key) with
          | error e =>
            simp [hp, liftExcept_error_run, raise_run, Res.prepend] at h
          | ok w =>
            cases w <;>
              simp [hp, liftExcept_ok_run, Res.prepend, pure_run] at h <;>
              obtain ⟨_, _, rfl⟩ := h <;> simp [Event.isMark]
        · simp only [hy] at h
          simp only [Bool.false_eq_true, if_false, pure_run, Res.ok.injEq] at h
          obtain ⟨_, _, rfl⟩ := h
          intro ev hev
          exact absurd hev (List.not_mem_nil _)

theorem addOptionalKeys_ok_events (P : Platform) (keys : List String) :
    ∀ (body body1 : Body) (fs fs1 : FS) (evs : List Event),
      addOptionalKeys P keys body fs = .ok body1 fs1 evs →
      ∀ ev, ev ∈ evs → ev.isMark = false := by
  induction keys with
  | nil =>
    intro body body1 fs fs1 evs h
    simp only [addOptionalKeys, pure_run, Res.ok.injEq] at h
    obtain ⟨_, _, rfl⟩ := h
    intro ev hev
    exact absurd hev (List.not_mem_nil _)
  | cons key keys ih =>
    intro body body1 fs fs1 evs h
    simp only [addOptionalKeys, addOptionalKey, bind_run] at h
    cases hc : convertInput P key fs with
    | stuck => simp [hc] at h
    | thrown e fs2 evs2 => simp [hc] at h
    | ok v fs2 evs2 =>
      have hev2 := convertInput_ok_events P key fs fs2 v evs2 hc
      simp only [hc] at h
      have hstep : ∃ b2, (if notEmptyString v = true then (pure (body.assign key v) : Act Body)
          else pure body) fs2 = .ok b2 fs2 [] := by
        by_cases hn : notEmptyString v = true
        · exact ⟨body.assign key v, by simp only [hn, if_true, pure_run]⟩
        · exact ⟨body, by simp only [hn, Bool.false_eq_true, if_false, pure_run]⟩
      obtain ⟨b2, hb2⟩ := hstep
      simp only [hb2, Res.prepend, List.append_nil] at h
      cases hr : addOptionalKeys P keys b2 fs2 with
      | stuck => simp [hr, Res.prepend] at h
      | thrown e fs3 evs3 => simp [hr, Res.prepend] at h
      | ok b3 fs3 evs3 =>
        simp only [hr, Res.prepend, Res.ok.injEq] at h
        obtain ⟨_, _, rfl⟩ := h
        intro ev hev
        rcases List.mem_append.mp hev with h1 | h1
        · exact hev2 ev h1
        · exact ih b2 b3 fs2 fs3 evs3 hr ev h1

/-- A trigger that returns has emitted no mark. -/
theorem runJob_ok_events (P : Platform) (R : Remote) (accountId job_id : String) (fs fs1 : FS)
    (t : TriggerResponse) (evs : List Event)
    (h : runJob P R accountId job_id fs = .ok t fs1 evs) :
    ∀ ev, ev ∈ evs → ev.isMark = false := by
  rw [runJob_run] at h
  cases hb : buildBody P fs with
  | stuck => simp [hb] at h
  | thrown e fs2 evs2 => simp [hb] at h
  | ok body fs2 evs2 =>
    simp only [hb] at h
    have hbody : ∀ ev, ev ∈ evs2 → ev.isMark = false := by
      unfold buildBody at hb
      simp only [bind_run] at hb
      cases hl : addOptionalKeys P OPTIONAL_KEYS [("cause", .str (P.getInput "cause"))] fs with
      | stuck => simp [hl] at hb
      | thrown e fs3 evs3 => simp [hl] at hb
      | ok b3 fs3 evs3 =>
        simp only [hl, emit_run, pure_run, Res.prepend, Res.ok.injEq] at hb
        obtain ⟨_, _, rfl⟩ := hb
        intro ev hev
        rcases List.mem_append.mp hev with h1 | h1
        · exact addOptionalKeys_ok_events P _ _ _ _ _ _ hl ev h1
        · simp only [List.append_nil, List.mem_singleton] at h1
          subst h1
          rfl
    cases hp : R.post (.triggerRun accountId job_id) body with
    | error e => simp [hp] at h
    | ok t2 =>
      simp only [hp, Res.ok.injEq] at h
      obtain ⟨_, _, rfl⟩ := h
      intro ev hev
      rcases List.mem_append.mp hev with h1 | h1
      · exact hbody ev h1
      · have := List.mem_singleton.mp h1
        subst this
        rfl

/-- The trigger never emits an output, on any path. -/
theorem runJob_no_output (P : Platform) (R : Remote) (accountId job_id : String) :
    Act.emitsOnly (fun ev => ev.isSetOutput = false) (runJob P R accountId job_id) := by
  unfold runJob
  refine emitsOnly_bind _ _ _ ?_ (fun body => ?_)
  · refine emitsOnly_mono _ _ _ ?_ (buildBody_local P)
    intro ev hev
    cases ev <;> simp_all [Event.isLocal, Event.isSetOutput]
  · exact emitsOnly_bind _ _ _ (emitsOnly_emit _ _ rfl) (fun _ => emitsOnly_liftExcept _ _)


theorem stepLines_poll (steps : List RunStep) :
    ∀ ev, ev ∈ stepLines steps → ev.isPoll = true := by
  induction steps with
  | nil => intro ev hev; exact absurd hev (List.not_mem_nil _)
  | cons s more ih =>
    intro ev hev
    simp only [stepLines, List.mem_cons] at hev
    rcases hev with rfl | rfl | rfl | h
    · rfl
    · rfl
    · rfl
    · exact ih ev h

/-- Every step is printed, in order: the lines of step `i` stand at positions
`3 * i` (the name after `# `) and `3 * i + 1` (the full log text). -/
theorem stepLines_at (steps : List RunStep) :
    (stepLines steps).length = 3 * steps.length ∧
    ∀ i s, steps[i]? = some s →
      (stepLines steps)[3 * i]? = some (.info ("# " ++ s.name)) ∧
      (stepLines steps)[3 * i + 1]? = some (.info s.logs) := by
  induction steps with
  | nil =>
    refine ⟨rfl, ?_⟩
    intro i s h
    simp at h
  | cons st more ih =>
    refine ⟨by simp only [stepLines, List.length_cons, ih.1]; omega, ?_⟩
    intro i s h
    cases i with
    | zero =>
      simp only [List.getElem?_cons_zero, Option.some.injEq] at h
      subst h
      exact ⟨rfl, rfl⟩
    | succ j =>
      simp only [List.getElem?_cons_succ] at h
      obtain ⟨h1, h2⟩ := ih.2 j s h
      have e1 : 3 * (j + 1) = (3 * j) + 1 + 1 + 1 := by omega
      have e2 : 3 * (j + 1) + 1 = (3 * j + 1) + 1 + 1 + 1 := by omega
      constructor
      · rw [e1]
        simp only [stepLines, List.getElem?_cons_succ]
        exact h1
      · rw [e2]
        simp only [stepLines, List.getElem?_cons_succ]
        exact h2

/-- A run of `executeAction` that returns went through the trigger, the poll
loop and the steps after it. -/
theorem executeAction_ok_inv (P : Platform) (R : Remote) (answers : List FetchOutcome)
    (fs fs3 : FS) (out : Outputs) (evs : List Event)
    (h : executeAction P R answers fs = .ok out fs3 evs) :
    ∃ f t fs1 evs1 res rest fs2 evs2 evs3,
      getBooleanInput P "failure_on_error" = .ok f ∧
      runJob P R (P.getInput "dbt_cloud_account_id") (P.getInput "dbt_cloud_current_job_id") fs =
        .ok t fs1 evs1 ∧
      pollLoop P (P.getInput "dbt_cloud_account_id") t.id answers fs1 = .ok (res, rest) fs2 evs2 ∧
      afterPoll P R (P.getInput "dbt_cloud_account_id") (P.getInput "dbt_cloud_base_job_id") t.id
        f res rest fs2 = .ok out fs3 evs3 ∧
      evs = evs1 ++ [.info ("Triggered job. " ++ t.href)] ++ evs2 ++ evs3 := by
  rw [executeAction_run] at h
  cases hf : getBooleanInput P "failure_on_error" with
  | error e => simp [hf] at h
  | ok f =>
    simp only [hf] at h
    cases hr : runJob P R (P.getInput "dbt_cloud_account_id")
        (P.getInput "dbt_cloud_current_job_id") fs with
    | stuck => simp [hr] at h
    | thrown e fs1 evs1 => simp [hr] at h
    | ok t fs1 evs1 =>
      simp only [hr] at h
      cases hp : pollLoop P (P.getInput "dbt_cloud_account_id") t.id answers fs1 with
      | stuck => simp [hp, Res.prepend] at h
      | thrown e fs2 evs2 => simp [hp, Res.prepend] at h
      | ok p fs2 evs2 =>
        obtain ⟨res, rest⟩ := p
        simp only [hp] at h
        cases ha : afterPoll P R (P.getInput "dbt_cloud_account_id")
            (P.getInput "dbt_cloud_base_job_id") t.id f res rest fs2 with
        | stuck => simp [ha, Res.prepend] at h
        | thrown e fs4 evs4 => simp [ha, Res.prepend] at h
        | ok o fs4 evs4 =>
          simp only [ha, Res.prepend, Res.ok.injEq] at h
          obtain ⟨rfl, rfl, rfl⟩ := h
          exact ⟨f, t, fs1, evs1, res, rest, fs2, evs2, evs4, rfl, rfl, hp, ha, by
            simp only [List.append_assoc]⟩

/-- The steps after the poll loop, when they return. -/
theorem afterPoll_ok_inv (P : Platform) (R : Remote) (accountId baseJobId : String)
    (runId : Nat) (f : Bool) (res : RunRecord) (rest : List FetchOutcome) (fs fs3 : FS)
    (out : Outputs) (evs3 : List Event)
    (h : afterPoll P R accountId baseJobId runId f res rest fs = .ok out fs3 evs3) :
    (res.is_error = false ∧
      downloadAndReturn P R accountId baseJobId runId res fs = .ok out fs3 evs3) ∨
    (res.is_error = true ∧ ∃ r2 more evs4, rest = .ok r2 :: more ∧
      downloadAndReturn P R accountId baseJobId runId r2 fs = .ok out fs3 evs4 ∧
      evs3 = (if f then [.setFailed none] else []) ++
        ([.info "Loading logs...", .sleep (.finite 5000), .httpGet (.run accountId runId)] ++
          stepLines r2.run_steps) ++ evs4) := by
  cases he : res.is_error with
  | false =>
    rw [afterPoll_no_error P R accountId baseJobId runId f res rest fs he] at h
    exact Or.inl ⟨rfl, h⟩
  | true =>
    right
    refine ⟨rfl, ?_⟩
    cases rest with
    | nil =>
      rw [afterPoll_error_stuck P R accountId baseJobId runId f res fs he] at h
      cases h
    | cons a more =>
      cases a with
      | failed e =>
        obtain ⟨msg, hmsg⟩ := afterPoll_error_failed P R accountId baseJobId runId f res e more
          fs he
        rw [hmsg] at h
        cases h
      | ok r2 =>
        rw [afterPoll_error_ok P R accountId baseJobId runId f res r2 more fs he] at h
        cases hd : downloadAndReturn P R accountId baseJobId runId r2 fs with
        | stuck => simp [hd, Res.prepend] at h
        | thrown e fs4 evs4 => simp [hd, Res.prepend] at h
        | ok o fs4 evs4 =>
          simp only [hd, Res.prepend, Res.ok.injEq] at h
          obtain ⟨rfl, rfl, rfl⟩ := h
          exact ⟨r2, more, evs4, rfl, hd, rfl⟩


/-! ## Log reporter and orchestrator: the claims -/

/-- C6: in `executeAction`, once the trigger returned and the poll loop exited
on a record `res`: when `res.is_error` is not set, what follows is exactly the
two artifact downloads, which hold no sleep and no GET of the run, so no
re-fetch and no step log. When `res.is_error` is set, the action (after the
failure mark, if any) logs `Loading logs...`, sleeps 5000 milliseconds, fetches
the run again and, given a record, prints for every step of its `run_steps`,
in order and skipping none, `# ` followed by the name and then the full log
text, before the downloads; given a failed re-fetch, there is no record and
reading it throws. -/
theorem log_report_iff_terminal_error (P : Platform) (R : Remote)
    (answers : List FetchOutcome) (fs fs1 fs2 : FS) (f : Bool) (t : TriggerResponse)
    (evs1 evs2 : List Event) (res : RunRecord) (rest : List FetchOutcome)
    (hf : getBooleanInput P "failure_on_error" = .ok f)
    (hrun : runJob P R (P.getInput "dbt_cloud_account_id")
      (P.getInput "dbt_cloud_current_job_id") fs = .ok t fs1 evs1)
    (hpoll : pollLoop P (P.getInput "dbt_cloud_account_id") t.id answers fs1 =
      .ok (res, rest) fs2 evs2) :
    (res.is_error = false →
      executeAction P R answers fs =
        Res.prepend (evs1 ++ [.info ("Triggered job. " ++ t.href)] ++ evs2)
          (downloadAndReturn P R (P.getInput "dbt_cloud_account_id")
            (P.getInput "dbt_cloud_base_job_id") t.id res fs2)) ∧
    (res.is_error = true → ∀ r2 more, rest = .ok r2 :: more →
      executeAction P R answers fs =
        Res.prepend
          (evs1 ++ [.info ("Triggered job. " ++ t.href)] ++ evs2 ++
            (if f then [.setFailed none] else []) ++
            [.info "Loading logs...", .sleep (.finite 5000),
              .httpGet (.run (P.getInput "dbt_cloud_account_id") t.id)] ++
            stepLines r2.run_steps)
          (downloadAndReturn P R (P.getInput "dbt_cloud_account_id")
            (P.getInput "dbt_cloud_base_job_id") t.id r2 fs2)) ∧
    (res.is_error = true → ∀ e more, rest = .failed e :: more →
      ∃ msg, executeAction P R answers fs =
        .thrown undefinedDataError fs2
          (evs1 ++ [.info ("Triggered job. " ++ t.href)] ++ evs2 ++
            (if f then [.setFailed none] else []) ++
            [.info "Loading logs...", .sleep (.finite 5000),
              .httpGet (.run (P.getInput "dbt_cloud_account_id") t.id),
              .consoleError msg])) ∧
    (∀ (r : RunRecord) (fs3 : FS) (ev : Event),
      ev ∈ (downloadAndReturn P R (P.getInput "dbt_cloud_account_id")
        (P.getInput "dbt_cloud_base_job_id") t.id r fs3).events →
      ev.isRunGet = false ∧ ev.isSleep = false) ∧
    (∀ steps : List RunStep, (stepLines steps).length = 3 * steps.length ∧
      ∀ i s, steps[i]? = some s →
        (stepLines steps)[3 * i]? = some (.info ("# " ++ s.name)) ∧
        (stepLines steps)[3 * i + 1]? = some (.info s.logs)) := by
  refine ⟨?_, ?_, ?_, ?_, stepLines_at⟩
  · intro he
    rw [executeAction_run]
    simp only [hf, hrun, hpoll]
    rw [afterPoll_no_error _ _ _ _ _ _ _ _ _ he]
    cases downloadAndReturn P R (P.getInput "dbt_cloud_account_id")
        (P.getInput "dbt_cloud_base_job_id") t.id res fs2 <;>
      simp [Res.prepend]
  · intro he r2 more hrest
    rw [executeAction_run]
    simp only [hf, hrun, hpoll, hrest]
    rw [afterPoll_error_ok _ _ _ _ _ _ _ _ _ _ he]
    cases downloadAndReturn P R (P.getInput "dbt_cloud_account_id")
        (P.getInput "dbt_cloud_base_job_id") t.id r2 fs2 <;>
      simp [Res.prepend]
  · intro he e more hrest
    obtain ⟨msg, hmsg⟩ := afterPoll_error_failed P R (P.getInput "dbt_cloud_account_id")
      (P.getInput "dbt_cloud_base_job_id") t.id f res e more fs2 he
    refine ⟨msg, ?_⟩
    rw [executeAction_run]
    simp only [hf, hrun, hpoll, hrest, hmsg]
    simp [Res.prepend]
  · intro r fs3 ev hev
    have h := downloadAndReturn_download P R (P.getInput "dbt_cloud_account_id")
      (P.getInput "dbt_cloud_base_job_id") t.id r fs3 ev hev
    cases ev with
    | httpGet ep => cases ep <;> simp_all [Event.isDownload, Event.isRunGet, Event.isSleep]
    | _ => simp_all [Event.isDownload, Event.isRunGet, Event.isSleep]

/-- C6, at an example: the run ended in error; its one step is printed. -/
theorem log_report_iff_terminal_error_witness :
    (getBooleanInput waitingExample "failure_on_error" = .ok true ∧
      runJob waitingExample (exampleRemote []) "7" "9" emptyFS =
        .ok { id := 42, href := "/runs/42" } emptyFS
          [.debug "Run job body:\n<body>", .httpPost (.triggerRun "7" "9") [("cause", .str "")]] ∧
      pollLoop waitingExample "7" 42 [.ok errorRecord, .ok errorRecordReloaded] emptyFS =
        .ok (errorRecord, [.ok errorRecordReloaded]) emptyFS
          [.sleep (.finite 2000), .httpGet (.run "7" 42), .info "Run: 42 - Error",
            .info "job finished with 'Error'"]) ∧
    executeAction waitingExample (exampleRemote []) [.ok errorRecord, .ok errorRecordReloaded]
        emptyFS =
      Res.prepend
        [.debug "Run job body:\n<body>", .httpPost (.triggerRun "7" "9") [("cause", .str "")],
          .info "Triggered job. /runs/42",
          .sleep (.finite 2000), .httpGet (.run "7" 42), .info "Run: 42 - Error",
          .info "job finished with 'Error'",
          .setFailed none,
          .info "Loading logs...", .sleep (.finite 5000), .httpGet (.run "7" 42),
          .info "# Invoke dbt run", .info "Database Error", .info "\n************\n"]
        (downloadAndReturn waitingExample (exampleRemote []) "7" "8" 42 errorRecordReloaded
          emptyFS) :=
  have hpoll : pollLoop waitingExample "7" 42 [.ok errorRecord, .ok errorRecordReloaded]
      emptyFS =
      .ok (errorRecord, [.ok errorRecordReloaded]) emptyFS
        [.sleep (.finite 2000), .httpGet (.run "7" 42), .info "Run: 42 - Error",
          .info "job finished with 'Error'"] := by
    with_unfolding_all rfl
  ⟨⟨rfl, rfl, hpoll⟩,
    (log_report_iff_terminal_error waitingExample (exampleRemote [])
      [.ok errorRecord, .ok errorRecordReloaded] emptyFS emptyFS emptyFS true
      { id := 42, href := "/runs/42" } _ _ errorRecord [.ok errorRecordReloaded]
      rfl rfl hpoll).2.1 rfl errorRecordReloaded [] rfl⟩

/-- C4, as stated, fails: the poll loop exits on a record in error with commit
`abc123`, the log report fetches the run again, and the returned `git_sha` is
that of the re-fetched record, `def456`. -/
theorem outputs_git_sha_of_exit_record_counterexample :
    (∃ evs, pollLoop waitingExample "7" 42 [.ok errorRecord, .ok errorRecordReloaded] emptyFS =
      .ok (errorRecord, [.ok errorRecordReloaded]) emptyFS evs) ∧
    errorRecord.git_sha = "abc123" ∧
    (∃ fs1 evs, executeAction waitingExample (exampleRemote [])
        [.ok errorRecord, .ok errorRecordReloaded] emptyFS =
      .ok { git_sha := "def456", run_id := 42 } fs1 evs) ∧
    errorRecord.git_sha ≠ "def456" := by
  refine ⟨⟨_, rfl⟩, rfl, ⟨_, _, rfl⟩, by decide⟩

/-- C4 (amended): every run of `executeAction` that returns went through a
trigger that returned and a poll loop that exited on a record `res`; the
returned `run_id` is the id of the trigger response, and the returned
`git_sha` is the commit SHA of the last fetched run record: `res` itself when
its `is_error` is not set, the record re-fetched by the log report when it is. -/
theorem outputs_of_completed_run (P : Platform) (R : Remote) (answers : List FetchOutcome)
    (fs fs3 : FS) (out : Outputs) (evs : List Event)
    (h : executeAction P R answers fs = .ok out fs3 evs) :
    ∃ t fs1 evs1 res rest fs2 evs2,
      runJob P R (P.getInput "dbt_cloud_account_id") (P.getInput "dbt_cloud_current_job_id") fs =
        .ok t fs1 evs1 ∧
      pollLoop P (P.getInput "dbt_cloud_account_id") t.id answers fs1 = .ok (res, rest) fs2 evs2 ∧
      out.run_id = t.id ∧
      (res.is_error = false → out.git_sha = res.git_sha) ∧
      (res.is_error = true → ∃ r2 more, rest = .ok r2 :: more ∧ out.git_sha = r2.git_sha) := by
  obtain ⟨f, t, fs1, evs1, res, rest, fs2, evs2, evs3, _, hrun, hpoll, hafter, _⟩ :=
    executeAction_ok_inv P R answers fs fs3 out evs h
  refine ⟨t, fs1, evs1, res, rest, fs2, evs2, hrun, hpoll, ?_, ?_, ?_⟩
  · rcases afterPoll_ok_inv _ _ _ _ _ _ _ _ _ _ _ _ hafter with ⟨_, hd⟩ | ⟨_, r2, more, evs4, _, hd, _⟩
    · rw [downloadAndReturn_ok _ _ _ _ _ _ _ _ _ _ hd]
    · rw [downloadAndReturn_ok _ _ _ _ _ _ _ _ _ _ hd]
  · intro he
    rcases afterPoll_ok_inv _ _ _ _ _ _ _ _ _ _ _ _ hafter with ⟨_, hd⟩ | ⟨he2, _⟩
    · rw [downloadAndReturn_ok _ _ _ _ _ _ _ _ _ _ hd]
    · rw [he] at he2
      cases he2
  · intro he
    rcases afterPoll_ok_inv _ _ _ _ _ _ _ _ _ _ _ _ hafter with ⟨he2, _⟩ | ⟨_, r2, more, evs4, hrest, hd, _⟩
    · rw [he] at he2
      cases he2
    · exact ⟨r2, more, hrest, by rw [downloadAndReturn_ok _ _ _ _ _ _ _ _ _ _ hd]⟩

/-- C4 (amended), at the scenario of the specification: the trigger returns
id 42 and href `/runs/42`, the first poll returns status 3 not complete, the
second status 10 complete with commit `abc123`; the outputs are `abc123` and
42, and both artifacts are written to both directories. -/
theorem outputs_of_completed_run_witness :
    executeAction waitingExample (exampleRemote []) [.ok runningRecord, .ok successRecord]
        emptyFS =
      .ok { git_sha := "abc123", run_id := 42 } scenarioFiles scenarioTrace ∧
    ∃ t fs1 evs1 res rest fs2 evs2,
      runJob waitingExample (exampleRemote []) "7" "9" emptyFS = .ok t fs1 evs1 ∧
      pollLoop waitingExample "7" t.id [.ok runningRecord, .ok successRecord] fs1 =
        .ok (res, rest) fs2 evs2 ∧
      (42 : Nat) = t.id ∧
      (res.is_error = false → "abc123" = res.git_sha) ∧
      (res.is_error = true → ∃ r2 more, rest = .ok r2 :: more ∧ "abc123" = r2.git_sha) :=
  have hexec : executeAction waitingExample (exampleRemote [])
      [.ok runningRecord, .ok successRecord] emptyFS =
      .ok { git_sha := "abc123", run_id := 42 } scenarioFiles scenarioTrace := by
    with_unfolding_all rfl
  ⟨hexec, outputs_of_completed_run waitingExample (exampleRemote [])
    [.ok runningRecord, .ok successRecord] emptyFS scenarioFiles
    { git_sha := "abc123", run_id := 42 } scenarioTrace hexec⟩


theorem printSteps_poll (steps : List RunStep) :
    Act.emitsOnly (fun ev => ev.isPoll = true) (printSteps steps) := by
  intro fs ev hev
  rw [printSteps_run] at hev
  exact stepLines_poll steps ev hev

theorem reportLogs_poll (accountId : String) (runId : Nat) (rest : List FetchOutcome) :
    Act.emitsOnly (fun ev => ev.isPoll = true) (reportLogs accountId runId rest) := by
  cases rest with
  | nil =>
    unfold reportLogs
    exact emitsOnly_stuck _
  | cons a more =>
    unfold reportLogs
    refine emitsOnly_bind _ _ _ (emitsOnly_emit _ _ rfl) (fun _ => ?_)
    refine emitsOnly_bind _ _ _ (emitsOnly_emit _ _ rfl) (fun _ => ?_)
    refine emitsOnly_bind _ _ _ (getJobRun_poll _ _ _) (fun res => ?_)
    cases res with
    | none => exact emitsOnly_raise _ _
    | some r => exact emitsOnly_bind _ _ _ (printSteps_poll _) (fun _ => emitsOnly_pure _ _)

theorem isPoll_no_output (ev : Event) (h : ev.isPoll = true) : ev.isSetOutput = false := by
  cases ev <;> simp_all [Event.isPoll, Event.isSetOutput]

theorem isPoll_no_mark (ev : Event) (h : ev.isPoll = true) : ev.isMark = false := by
  cases ev <;> simp_all [Event.isPoll, Event.isMark]

theorem isDownload_no_output (ev : Event) (h : ev.isDownload = true) :
    ev.isSetOutput = false := by
  cases ev <;> simp_all [Event.isDownload, Event.isSetOutput]

theorem isDownload_no_mark (ev : Event) (h : ev.isDownload = true) : ev.isMark = false := by
  cases ev <;> simp_all [Event.isDownload, Event.isMark]

theorem isMark_false_no_setFailed (ev : Event) (h : ev.isMark = false) :
    ev.isSetFailed = false := by
  cases ev <;> simp_all [Event.isMark, Event.isSetFailed]

theorem afterPoll_no_output (P : Platform) (R : Remote) (accountId baseJobId : String)
    (runId : Nat) (f : Bool) (res : RunRecord) (rest : List FetchOutcome) :
    Act.emitsOnly (fun ev => ev.isSetOutput = false)
      (afterPoll P R accountId baseJobId runId f res rest) := by
  intro fs ev hev
  have hdl : ∀ r, ev ∈ (downloadAndReturn P R accountId baseJobId runId r fs).events →
      ev.isSetOutput = false := fun r h =>
    isDownload_no_output ev (downloadAndReturn_download P R accountId baseJobId runId r fs ev h)
  cases he : res.is_error with
  | false =>
    rw [afterPoll_no_error P R accountId baseJobId runId f res rest fs he] at hev
    exact hdl res hev
  | true =>
    cases rest with
    | nil =>
      rw [afterPoll_error_stuck P R accountId baseJobId runId f res fs he] at hev
      exact absurd hev (List.not_mem_nil _)
    | cons a more =>
      cases a with
      | failed e =>
        obtain ⟨msg, hmsg⟩ := afterPoll_error_failed P R accountId baseJobId runId f res e more
          fs he
        rw [hmsg] at hev
        simp only [Res.events, List.mem_append, List.mem_cons, List.mem_singleton,
          List.not_mem_nil, or_false] at hev
        rcases hev with h3 | rfl | rfl | rfl | rfl
        · cases f with
          | true =>
            simp only [if_true, List.mem_singleton] at h3
            subst h3
            rfl
          | false => simp at h3
        · rfl
        · rfl
        · rfl
        · rfl
      | ok r2 =>
        rw [afterPoll_error_ok P R accountId baseJobId runId f res r2 more fs he] at hev
        rcases Res.mem_events_prepend _ _ _ hev with h3 | h3
        · simp only [List.mem_append, List.mem_cons, List.mem_singleton, List.not_mem_nil,
            or_false] at h3
          rcases h3 with h3 | (rfl | rfl | rfl) | h3
          · cases f with
            | true =>
              simp only [if_true, List.mem_singleton] at h3
              subst h3
              rfl
            | false => simp at h3
          · rfl
          · rfl
          · rfl
          · exact isPoll_no_output ev (stepLines_poll _ ev h3)
        · exact hdl r2 h3

/-- No step of `executeAction` emits an output, on any path. -/
theorem executeAction_no_output (P : Platform) (R : Remote) (answers : List FetchOutcome) :
    Act.emitsOnly (fun ev => ev.isSetOutput = false) (executeAction P R answers) := by
  unfold executeAction
  refine emitsOnly_bind _ _ _ (emitsOnly_liftExcept _ _) (fun f => ?_)
  refine emitsOnly_bind _ _ _ (runJob_no_output _ _ _ _) (fun t => ?_)
  refine emitsOnly_bind _ _ _ (emitsOnly_emit _ _ rfl) (fun _ => ?_)
  refine emitsOnly_bind _ _ _
    (emitsOnly_mono _ _ _ isPoll_no_output (pollLoop_poll _ _ _ _)) (fun p => ?_)
  obtain ⟨res, rest⟩ := p
  exact afterPoll_no_output _ _ _ _ _ _ _ _

/-- What `main` does, by the outcome of `executeAction`. -/
theorem main_run (P : Platform) (R : Remote) (answers : List FetchOutcome) (fs : FS) :
    main P R answers fs =
      match executeAction P R answers fs with
      | .ok out fs1 evs =>
        .ok () fs1
          (evs ++ [.info ("dbt Cloud Job commit SHA is " ++ out.git_sha),
            .setOutput "git_sha" (.str out.git_sha), .setOutput "run_id" (.num out.run_id)])
      | .thrown e fs1 evs =>
        .ok () fs1
          (evs ++ [.setFailed (some ("There has been a problem with running your dbt cloud job:\n"
            ++ e.text)), .debugStack e])
      | .stuck => .stuck := by
  unfold main tryCatch
  simp only [bind_run]
  cases executeAction P R answers fs with
  | stuck => rfl
  | thrown e fs1 evs => rfl
  | ok out fs1 evs => rfl

/-- On a run of `executeAction` that returns, the failure mark was set exactly
when the record the poll loop ended on is in error and `failure_on_error` is set. -/
theorem executeAction_ok_failed_iff (P : Platform) (R : Remote) (answers : List FetchOutcome)
    (fs fs3 : FS) (out : Outputs) (evs : List Event)
    (h : executeAction P R answers fs = .ok out fs3 evs) :
    ∃ f t fs1 evs1 res rest fs2 evs2,
      getBooleanInput P "failure_on_error" = .ok f ∧
      runJob P R (P.getInput "dbt_cloud_account_id") (P.getInput "dbt_cloud_current_job_id") fs =
        .ok t fs1 evs1 ∧
      pollLoop P (P.getInput "dbt_cloud_account_id") t.id answers fs1 = .ok (res, rest) fs2 evs2 ∧
      ((∃ ev, ev ∈ evs ∧ ev.isSetFailed = true) ↔ (res.is_error = true ∧ f = true)) := by
  obtain ⟨f, t, fs1, evs1, res, rest, fs2, evs2, evs3, hf, hrun, hpoll, hafter, hevs⟩ :=
    executeAction_ok_inv P R answers fs fs3 out evs h
  refine ⟨f, t, fs1, evs1, res, rest, fs2, evs2, hf, hrun, hpoll, ?_⟩
  have h1 : ∀ ev, ev ∈ evs1 → ev.isSetFailed = false := fun ev hev =>
    isMark_false_no_setFailed ev (runJob_ok_events P R _ _ fs fs1 t evs1 hrun ev hev)
  have h2 : ∀ ev, ev ∈ evs2 → ev.isSetFailed = false := fun ev hev =>
    isMark_false_no_setFailed ev (isPoll_no_mark ev (by
      have := pollLoop_poll P (P.getInput "dbt_cloud_account_id") t.id answers fs1 ev
      rw [hpoll] at this
      exact this hev))
  have hdl : ∀ r evs4 o, downloadAndReturn P R (P.getInput "dbt_cloud_account_id")
      (P.getInput "dbt_cloud_base_job_id") t.id r fs2 = .ok o fs3 evs4 →
      ∀ ev, ev ∈ evs4 → ev.isSetFailed = false := by
    intro r evs4 o hd ev hev
    have := downloadAndReturn_download P R (P.getInput "dbt_cloud_account_id")
      (P.getInput "dbt_cloud_base_job_id") t.id r fs2 ev
    rw [hd] at this
    exact isMark_false_no_setFailed ev (isDownload_no_mark ev (this hev))
  have hsplit : ∀ ev, ev ∈ evs → ev.isSetFailed = true → ev ∈ evs3 := by
    intro ev hev hsf
    rw [hevs] at hev
    simp only [List.mem_append, List.mem_singleton] at hev
    rcases hev with ((h3 | h3) | h3) | h3
    · rw [h1 ev h3] at hsf; cases hsf
    · subst h3; cases hsf
    · rw [h2 ev h3] at hsf; cases hsf
    · exact h3
  rcases afterPoll_ok_inv _ _ _ _ _ _ _ _ _ _ _ _ hafter with
    ⟨he, hd⟩ | ⟨he, r2, more, evs4, _, hd, hev3⟩
  · constructor
    · rintro ⟨ev, hev, hsf⟩
      have := hdl res evs3 out hd ev (hsplit ev hev hsf)
      rw [this] at hsf
      cases hsf
    · rintro ⟨he2, _⟩
      rw [he] at he2
      cases he2
  · constructor
    · rintro ⟨ev, hev, hsf⟩
      refine ⟨he, ?_⟩
      have hin := hsplit ev hev hsf
      rw [hev3] at hin
      simp only [List.mem_append] at hin
      rcases hin with (h3 | h3 | h3) | h3
      · cases f with
        | true => rfl
        | false => simp at h3
      · simp only [List.mem_cons, List.mem_singleton, List.not_mem_nil, or_false] at h3
        rcases h3 with rfl | rfl | rfl <;> cases hsf
      · have := isMark_false_no_setFailed ev (isPoll_no_mark ev (stepLines_poll _ ev h3))
        rw [this] at hsf
        cases hsf
      · have := hdl r2 evs4 out hd ev h3
        rw [this] at hsf
        cases hsf
    · rintro ⟨_, hf2⟩
      refine ⟨.setFailed none, ?_, rfl⟩
      rw [hevs, hev3, hf2]
      simp


/-- A download for the base job that returns has fetched and written the manifest. -/
theorem getJobArtifacts_ok_manifest (P : Platform) (R : Remote) (accountId jobId : String)
    (fs fsA : FS) (evsA : List Event)
    (h : getJobArtifacts P R accountId jobId fs = .ok () fsA evsA) :
    ∃ m, R.getArtifact (.jobArtifact accountId jobId "manifest.json") = .ok m ∧
      Event.writeFile "./target-base/manifest.json" (P.jsonStringify m) ∈ evsA := by
  obtain ⟨fs0, evs0, _, _, _, hrun⟩ := getJobArtifacts_run P R accountId jobId fs
  rw [hrun] at h
  cases hm : R.getArtifact (.jobArtifact accountId jobId "manifest.json") with
  | error e => simp [hm, Res.prepend] at h
  | ok m =>
    refine ⟨m, rfl, ?_⟩
    simp only [hm] at h
    cases hc : R.getArtifact (.jobArtifact accountId jobId "catalog.json") with
    | ok c =>
      simp only [hc, Res.prepend, Res.ok.injEq, true_and] at h
      rw [← h.2]
      simp
    | error e =>
      simp only [hc] at h
      by_cases h4 : (e.responseStatus == some 404) = true
      · simp only [h4, if_true, Res.prepend, Res.ok.injEq, true_and] at h
        rw [← h.2]
        simp
      · simp [h4, Res.prepend] at h

/-- A download for the current run that returns has fetched and written the manifest. -/
theorem getRunArtifacts_ok_manifest (P : Platform) (R : Remote) (accountId : String)
    (runId : Nat) (fs fsA : FS) (evsA : List Event)
    (h : getRunArtifacts P R accountId runId fs = .ok () fsA evsA) :
    ∃ m, R.getArtifact (.runArtifact accountId runId "manifest.json") = .ok m ∧
      Event.writeFile "./target/manifest.json" (P.jsonStringify m) ∈ evsA := by
  obtain ⟨fs0, evs0, _, _, _, hrun⟩ := getRunArtifacts_run P R accountId runId fs
  rw [hrun] at h
  cases hm : R.getArtifact (.runArtifact accountId runId "manifest.json") with
  | error e => simp [hm, Res.prepend] at h
  | ok m =>
    refine ⟨m, rfl, ?_⟩
    simp only [hm] at h
    cases hc : R.getArtifact (.runArtifact accountId runId "catalog.json") with
    | ok c =>
      simp only [hc, Res.prepend, Res.ok.injEq, true_and] at h
      rw [← h.2]
      simp
    | error e =>
      simp only [hc] at h
      by_cases h4 : (e.responseStatus == some 404) = true
      · simp only [h4, if_true, Res.prepend, Res.ok.injEq, true_and] at h
        rw [← h.2]
        simp
      · simp [h4, Res.prepend] at h

/-- The last steps of `executeAction`, when they return: both downloads
returned, one after the other. -/
theorem downloadAndReturn_ok_inv (P : Platform) (R : Remote) (accountId baseJobId : String)
    (runId : Nat) (res : RunRecord) (fs fs3 : FS) (out : Outputs) (evs : List Event)
    (h : downloadAndReturn P R accountId baseJobId runId res fs = .ok out fs3 evs) :
    ∃ fsA evsA evsB mBase mRun,
      getJobArtifacts P R accountId baseJobId fs = .ok () fsA evsA ∧
      getRunArtifacts P R accountId runId fsA = .ok () fs3 evsB ∧
      R.getArtifact (.jobArtifact accountId baseJobId "manifest.json") = .ok mBase ∧
      Event.writeFile "./target-base/manifest.json" (P.jsonStringify mBase) ∈ evsA ∧
      R.getArtifact (.runArtifact accountId runId "manifest.json") = .ok mRun ∧
      Event.writeFile "./target/manifest.json" (P.jsonStringify mRun) ∈ evsB ∧
      evs = evsA ++ evsB ∧
      out = { git_sha := res.git_sha, run_id := runId } := by
  have hout := downloadAndReturn_ok P R accountId baseJobId runId res fs fs3 out evs h
  unfold downloadAndReturn at h
  simp only [bind_run] at h
  cases h1 : getJobArtifacts P R accountId baseJobId fs with
  | stuck => simp [h1] at h
  | thrown e fs2 evs2 => simp [h1] at h
  | ok u fs2 evs2 =>
    simp only [h1] at h
    cases h2 : getRunArtifacts P R accountId runId fs2 with
    | stuck => simp [h2, Res.prepend] at h
    | thrown e fs4 evs4 => simp [h2, Res.prepend] at h
    | ok u2 fs4 evs4 =>
      simp only [h2, pure_run, Res.prepend, Res.ok.injEq, List.append_nil] at h
      obtain ⟨_, rfl, rfl⟩ := h
      obtain ⟨mB, hmB, hwB⟩ := getJobArtifacts_ok_manifest P R accountId baseJobId fs fs2 evs2 h1
      obtain ⟨mR, hmR, hwR⟩ := getRunArtifacts_ok_manifest P R accountId runId fs2 fs4 evs4 h2
      exact ⟨fs2, evs2, evs4, mB, mR, rfl, h2, hmB, hwB, hmR, hwR, rfl, hout⟩

/-- C9, as stated, fails: with `failure_on_error` set and a run that ended in
error, `main` marks the invocation failed and still emits both outputs. -/
theorem main_failed_and_outputs_counterexample :
    (∃ fs1 evs, main waitingExample (exampleRemote []) [.ok errorRecord, .ok errorRecordReloaded]
      emptyFS = .ok () fs1 evs) ∧
    (main waitingExample (exampleRemote []) [.ok errorRecord, .ok errorRecordReloaded]
        emptyFS).events.filter Event.isMark =
      [.setFailed none, .setOutput "git_sha" (.str "def456"), .setOutput "run_id" (.num 42)] := by
  exact ⟨⟨_, _, rfl⟩, rfl⟩

/-- C9 (amended): every execution of `main` that ends goes one of two ways.
Either `executeAction` returns: then the whole sequence was completed (the
trigger returned, the poll loop exited on a record, the log report ran and
printed the steps of the re-fetched record exactly when that record is in
error, `getJobArtifacts` and then `getRunArtifacts` returned, each having
fetched and written at least its `manifest.json`), `main` emits both outputs
`git_sha` and `run_id`, in that order and last, no output was emitted before,
and the invocation was marked failed as well exactly when the record the poll
loop ended on is in error and `failure_on_error` is set. Or `executeAction`
throws: then `main` marks the invocation failed with the error text and no
output is emitted. `main` itself never throws. -/
theorem main_outputs_or_failed (P : Platform) (R : Remote) (answers : List FetchOutcome)
    (fs : FS) :
    (∀ out fs3 evs, executeAction P R answers fs = .ok out fs3 evs →
      main P R answers fs =
        .ok () fs3
          (evs ++ [.info ("dbt Cloud Job commit SHA is " ++ out.git_sha),
            .setOutput "git_sha" (.str out.git_sha), .setOutput "run_id" (.num out.run_id)]) ∧
      (∀ ev, ev ∈ evs → ev.isSetOutput = false) ∧
      ∃ f t fs1 evs1 res rest fs2 evs2 last evsLog fsA evsA evsB mBase mRun,
        getBooleanInput P "failure_on_error" = .ok f ∧
        runJob P R (P.getInput "dbt_cloud_account_id") (P.getInput "dbt_cloud_current_job_id")
          fs = .ok t fs1 evs1 ∧
        pollLoop P (P.getInput "dbt_cloud_account_id") t.id answers fs1 =
          .ok (res, rest) fs2 evs2 ∧
        (res.is_error = false → last = res ∧ evsLog = []) ∧
        (res.is_error = true → (∃ more, rest = .ok last :: more) ∧
          evsLog = (if f then [.setFailed none] else []) ++
            ([.info "Loading logs...", .sleep (.finite 5000),
              .httpGet (.run (P.getInput "dbt_cloud_account_id") t.id)] ++
              stepLines last.run_steps)) ∧
        getJobArtifacts P R (P.getInput "dbt_cloud_account_id")
          (P.getInput "dbt_cloud_base_job_id") fs2 = .ok () fsA evsA ∧
        getRunArtifacts P R (P.getInput "dbt_cloud_account_id") t.id fsA = .ok () fs3 evsB ∧
        R.getArtifact (.jobArtifact (P.getInput "dbt_cloud_account_id")
          (P.getInput "dbt_cloud_base_job_id") "manifest.json") = .ok mBase ∧
        Event.writeFile "./target-base/manifest.json" (P.jsonStringify mBase) ∈ evsA ∧
        R.getArtifact (.runArtifact (P.getInput "dbt_cloud_account_id") t.id "manifest.json") =
          .ok mRun ∧
        Event.writeFile "./target/manifest.json" (P.jsonStringify mRun) ∈ evsB ∧
        evs = evs1 ++ [.info ("Triggered job. " ++ t.href)] ++ evs2 ++ evsLog ++ evsA ++ evsB ∧
        out = { git_sha := last.git_sha, run_id := t.id } ∧
        ((∃ ev, ev ∈ evs ∧ ev.isSetFailed = true) ↔ (res.is_error = true ∧ f = true))) ∧
    (∀ e fs3 evs, executeAction P R answers fs = .thrown e fs3 evs →
      main P R answers fs =
        .ok () fs3
          (evs ++ [.setFailed (some ("There has been a problem with running your dbt cloud job:\n"
            ++ e.text)), .debugStack e]) ∧
      (∀ ev, ev ∈ (main P R answers fs).events → ev.isSetOutput = false)) ∧
    (executeAction P R answers fs = .stuck → main P R answers fs = .stuck) ∧
    (∀ e fs3 evs, main P R answers fs ≠ .thrown e fs3 evs) := by
  have hno := executeAction_no_output P R answers fs
  refine ⟨?_, ?_, ?_, ?_⟩
  · intro out fs3 evs h
    refine ⟨by rw [main_run, h], ?_, ?_⟩
    · intro ev hev
      rw [h] at hno
      exact hno ev hev
    · obtain ⟨f, t, fs1, evs1, res, rest, fs2, evs2, evs3, hf, hrun, hpoll, hafter, hevs⟩ :=
        executeAction_ok_inv P R answers fs fs3 out evs h
      obtain ⟨f2, t2, fs1b, evs1b, res2, rest2, fs2b, evs2b, hf2, hrun2, hpoll2, hiff⟩ :=
        executeAction_ok_failed_iff P R answers fs fs3 out evs h
      have hff : f2 = f := by
        rw [hf] at hf2
        injection hf2 with h1
        exact h1.symm
      subst hff
      rw [hrun] at hrun2
      simp only [Res.ok.injEq] at hrun2
      obtain ⟨rfl, rfl, rfl⟩ := hrun2
      rw [hpoll] at hpoll2
      simp only [Res.ok.injEq, Prod.mk.injEq] at hpoll2
      obtain ⟨⟨rfl, rfl⟩, rfl, rfl⟩ := hpoll2
      rcases afterPoll_ok_inv _ _ _ _ _ _ _ _ _ _ _ _ hafter with
        ⟨he, hd⟩ | ⟨he, r2, more, evs4, hrest, hd, hev3⟩
      · obtain ⟨fsA, evsA, evsB, mBase, mRun, hjob, hrunA, hmB, hwB, hmR, hwR, hev4, hout⟩ :=
          downloadAndReturn_ok_inv P R _ _ _ _ _ _ _ _ hd
        refine ⟨f2, t, fs1, evs1, res, rest, fs2, evs2, res, [], fsA, evsA, evsB, mBase, mRun,
          hf, hrun, hpoll, fun _ => ⟨rfl, rfl⟩, ?_, hjob, hrunA, hmB, hwB, hmR, hwR, ?_, hout,
          hiff⟩
        · intro he2
          rw [he] at he2
          cases he2
        · rw [hevs, hev4]
          simp only [List.append_assoc, List.append_nil]
      · obtain ⟨fsA, evsA, evsB, mBase, mRun, hjob, hrunA, hmB, hwB, hmR, hwR, hev4, hout⟩ :=
          downloadAndReturn_ok_inv P R _ _ _ _ _ _ _ _ hd
        refine ⟨f2, t, fs1, evs1, res, rest, fs2, evs2, r2, _, fsA, evsA, evsB, mBase, mRun,
          hf, hrun, hpoll, ?_, fun _ => ⟨⟨more, hrest⟩, rfl⟩, hjob, hrunA, hmB, hwB, hmR, hwR,
          ?_, hout, hiff⟩
        · intro he2
          rw [he] at he2
          cases he2
        · rw [hevs, hev3, hev4]
          simp only [List.append_assoc]
  · intro e fs3 evs h
    have hm : main P R answers fs =
        .ok () fs3
          (evs ++ [.setFailed (some ("There has been a problem with running your dbt cloud job:\n"
            ++ e.text)), .debugStack e]) := by rw [main_run, h]
    refine ⟨hm, ?_⟩
    intro ev hev
    rw [hm] at hev
    rw [h] at hno
    simp only [Res.events, List.mem_append, List.mem_cons, List.mem_singleton, List.not_mem_nil,
      or_false] at hev
    rcases hev with h1 | rfl | rfl
    · exact hno ev h1
    · rfl
    · rfl
  · intro h
    rw [main_run, h]
  · intro e fs3 evs h
    rw [main_run] at h
    cases hx : executeAction P R answers fs with
    | stuck => simp [hx] at h
    | thrown e2 fs4 evs4 => simp [hx] at h
    | ok o fs4 evs4 => simp [hx] at h

/-- A run of `main` that ends in the failed state: the trigger is rejected. -/
theorem main_failed_example :
    main badStepsExample (exampleRemote []) [] emptyFS =
      .ok () emptyFS
        [.debug "[",
          .setFailed (some ("Could not interpret steps_override correctly. " ++
            "Pass valid YAML in a string.\n Example:\n  " ++
            "property: '['a string', 'another string']'")),
          .setFailed (some ("There has been a problem with running your dbt cloud job:\n" ++
            "YAMLParseError: Flow sequence must end with a ]")),
          .debugStack { text := "YAMLParseError: Flow sequence must end with a ]",
                        responseStatus := none }] := by
  rfl


end DbtCloudAction
